import Mathlib

/-!
Verification of the XGE Climate Explorer front-end (Svelte/TypeScript).

This development gives a shallow embedding of the data model and the pure
logic of the repository: the JS value model used by the validation module
(`src/lib/utils/validation`), the ISO-date logic of `validateISODate`, the
project dataset (`src/lib/data/projects.ts`), the projects store and its
derived filtered view (`src/lib/stores/projects.ts`), the map store
(`src/lib/stores/map`), the error-classification module
(`src/lib/utils/errors.ts`), the `uniqueBy` helper, and the marker
reconciliation loop of `ProjectMarkers.svelte`.

JavaScript numbers are modelled as either `NaN` or an exact decimal
fraction `num / 10 ^ exp` (every finite IEEE double `m * 2 ^ e` equals such
a fraction, and the embedded code never computes with numbers, it only
compares them against integer constants, which is exact). Machine-level
float behaviour is never relied upon. Host functionality that is not part of the
repository (the WHATWG URL parser behind `new URL`, and the `Date`
built-ins) is modelled explicitly where its behaviour is documented and
abstracted as a parameter where only its interface matters.
-/

set_option maxRecDepth 40000

namespace XGE

/-! ### JS value model -/

/-- An exact finite JS number value, the fraction `num / 10 ^ exp`. Every
finite IEEE double is an integer multiple of a power of two and hence
exactly equal to such a decimal fraction; the decimal literals of the
dataset are transcribed directly. -/
structure DecNum where
  num : Int
  exp : Nat
deriving DecidableEq

/-- Ten to the power `e`, by structural recursion. -/
def tenPow : Nat → Int
  | 0 => 1
  | e + 1 => 10 * tenPow e

/-- A JavaScript number: either `NaN` or an exact finite value. The
embedded code only compares numbers, never computes with them, so exact
values model the occurring floats faithfully. -/
inductive JsNum where
  | nan
  | val (q : DecNum)
deriving DecidableEq

/-- A JavaScript runtime value, as far as the validation module inspects
values of type `unknown`: `undefined`, `null`, booleans, numbers, strings,
arrays, and (other) objects. -/
inductive JsVal where
  | undefv
  | nullv
  | boolv (b : Bool)
  | numv (n : JsNum)
  | strv (s : String)
  | arrv (xs : List JsVal)
  | objv

/-- JavaScript truthiness: `undefined`, `null`, `false`, `NaN`, `0` and the
empty string are falsy; every other value (including every array and
object) is truthy. -/
def jsTruthy : JsVal → Bool
  | .undefv => false
  | .nullv => false
  | .boolv b => b
  | .numv .nan => false
  | .numv (.val q) => q.num != 0
  | .strv s => s != ""
  | .arrv _ => true
  | .objv => true

/-- The test `typeof v === 'string'`. -/
def jsIsString : JsVal → Bool
  | .strv _ => true
  | _ => false

/-- Underlying string of a string value (only used under `jsIsString`). -/
def jsStrVal : JsVal → String
  | .strv s => s
  | _ => ""

/-- The test `typeof v === 'number'` (`NaN` is a number in JS). -/
def jsIsNumber : JsVal → Bool
  | .numv _ => true
  | _ => false

/-- The test `isNaN(v)` on a value already known to be a number. -/
def jsIsNaN : JsVal → Bool
  | .numv .nan => true
  | _ => false

/-- The test `v === undefined`. -/
def jsIsUndefined : JsVal → Bool
  | .undefv => true
  | _ => false

/-- A JS comparison `v < c` against an integer constant (the value
`num / 10 ^ exp` is below `c` exactly when `num < c * 10 ^ exp`): `false`
whenever `v` is not a number or is `NaN`. -/
def jsNumLt (v : JsVal) (c : Int) : Bool :=
  match v with
  | .numv (.val q) => q.num < c * tenPow q.exp
  | _ => false

/-- A JS comparison `v > c` against an integer constant: `false` whenever
`v` is not a number or is `NaN`. -/
def jsNumGt (v : JsVal) (c : Int) : Bool :=
  match v with
  | .numv (.val q) => c * tenPow q.exp < q.num
  | _ => false

/-- Model of `String.prototype.trim`: strip whitespace from both ends.
Defined over the character list so that it evaluates inside the kernel. -/
def jsTrim (s : String) : String :=
  String.mk (((s.data.dropWhile Char.isWhitespace).reverse.dropWhile
    Char.isWhitespace).reverse)

/-! ### Calendar model for `validateISODate`

The validation module calls `new Date(dateString)` on a string already
matched against the regular expression of an ISO `YYYY-MM-DD` date, then
checks `!isNaN(date.getTime())`, `date <= now` and
`date.toISOString().slice(0, 10) === dateString`.

Per the ECMAScript date-time string format, a date-only string parses
successfully exactly when the month field is 01..12 and the day field is
01..31; `MakeDay` then rolls a day count beyond the month length into the
following month (for example `2023-02-30` denotes 2023-03-02). The parsed
value is midnight UTC of the resulting civil day, so comparing it to the
current instant and slicing `toISOString` are both functions of the civil
date alone. We therefore model parsed `Date` values, and the current
instant, by their UTC civil date. -/

/-- A UTC civil date: year, month (1..12 when normalized), day. -/
@[ext]
structure CivilDate where
  year : Nat
  month : Nat
  day : Nat
deriving DecidableEq

/-- Gregorian leap-year rule. -/
def isLeapYear (y : Nat) : Bool :=
  (y % 4 == 0 && y % 100 != 0) || y % 400 == 0

/-- Length of a month in the proleptic Gregorian calendar. -/
def daysInMonth (y m : Nat) : Nat :=
  if m == 2 then (if isLeapYear y then 29 else 28)
  else if m == 4 || m == 6 || m == 9 || m == 11 then 30
  else 31

/-- ECMAScript `MakeDay` normalization for a parsed date-only string with
month 1..12 and day 1..31: a day count beyond the month length rolls into
the following month. Since the day is at most 31 and every month has at
least 28 days, at most one rollover occurs, and December (31 days) never
overflows, so the year is unchanged. -/
def normalizeDate (y m d : Nat) : CivilDate :=
  if d ≤ daysInMonth y m then ⟨y, m, d⟩
  else if m == 12 then ⟨y + 1, 1, d - 31⟩
  else ⟨y, m + 1, d - daysInMonth y m⟩

/-- Decimal digit test on a character. -/
def isDigitChar (c : Char) : Bool :=
  48 ≤ c.toNat && c.toNat ≤ 57

/-- Numeric value of a decimal digit character. -/
def digitVal (c : Char) : Nat := c.toNat - 48

/-- Decimal digit character for a value 0..9. -/
def digitChar (n : Nat) : Char := Char.ofNat (48 + n)

/-- Shape of the regular expression `^\d{4}-\d{2}-\d{2}$` together with the
numeric fields it captures: ten characters, digits in the year, month and
day positions, hyphens between them. -/
def isoDigits : List Char → Option (Nat × Nat × Nat)
  | [y1, y2, y3, y4, h1, n1, n2, h2, d1, d2] =>
    if h1 == '-' && h2 == '-' &&
        (isDigitChar y1 && isDigitChar y2 && isDigitChar y3 && isDigitChar y4 &&
         isDigitChar n1 && isDigitChar n2 && isDigitChar d1 && isDigitChar d2) then
      some (digitVal y1 * 1000 + digitVal y2 * 100 + digitVal y3 * 10 + digitVal y4,
            digitVal n1 * 10 + digitVal n2,
            digitVal d1 * 10 + digitVal d2)
    else none
  | _ => none

/-- The regular expression test `/^\d{4}-\d{2}-\d{2}$/.test(dateString)`. -/
def isISOFormatString (s : String) : Bool :=
  (isoDigits s.data).isSome

/-- Range check and normalization applied by the `Date` parser to the
numeric fields of a date-only string. -/
def parseTriple (y m d : Nat) : Option CivilDate :=
  if 1 ≤ m && m ≤ 12 && 1 ≤ d && d ≤ 31 then some (normalizeDate y m d)
  else none

/-- Model of `new Date(dateString)` for a date-only string: `none` models
an invalid date (a `NaN` time value), `some` carries the UTC civil date of
the parsed instant (midnight UTC). Month outside 01..12 or day outside
01..31 fails the ECMAScript date-time string grammar; an in-range day
beyond the month length rolls over via `MakeDay`. -/
def parseISODateString (s : String) : Option CivilDate :=
  match isoDigits s.data with
  | some (y, m, d) => parseTriple y m d
  | none => none

/-- Four-digit zero-padded decimal representation (for years 0..9999). -/
def pad4Chars (n : Nat) : List Char :=
  [digitChar (n / 1000 % 10), digitChar (n / 100 % 10),
   digitChar (n / 10 % 10), digitChar (n % 10)]

/-- Two-digit zero-padded decimal representation. -/
def pad2Chars (n : Nat) : List Char :=
  [digitChar (n / 10 % 10), digitChar (n % 10)]

/-- The first ten characters of `Date.prototype.toISOString` for a
midnight-UTC date value with year 0..9999, that is,
`date.toISOString().slice(0, 10)`. -/
def toISODateString (t : CivilDate) : String :=
  String.mk (pad4Chars t.year ++ '-' :: (pad2Chars t.month ++ '-' :: pad2Chars t.day))

/-- Chronological order on civil dates (lexicographic). For date values at
midnight UTC, `date₁ <= date₂` on the underlying time values coincides
with this order; `date <= now` for the current instant `now` coincides
with it applied to the civil date of the current UTC day. -/
def civilLe (a b : CivilDate) : Bool :=
  a.year < b.year ||
    (a.year == b.year &&
      (a.month < b.month || (a.month == b.month && a.day ≤ b.day)))

/-- `validateISODate` from the validation module. `now` is the civil date
of the current UTC day, modelling the instant `new Date()`; see `civilLe`
for the comparison `date <= now`. The final round-trip check
`date.toISOString().slice(0, 10) === dateString` is
`toISODateString date == dateString`. -/
def validateISODate (now : CivilDate) (dateString : String) : Bool :=
  if !isISOFormatString dateString then false
  else
    match parseISODateString dateString with
    | none => false
    | some date => civilLe date now && toISODateString date == dateString

/-- Real-calendar-date check on the numeric fields of an ISO date string:
month 1..12 and day within the length of that month. -/
def realDateTriple (y m d : Nat) : Option CivilDate :=
  if 1 ≤ m && m ≤ 12 && 1 ≤ d && d ≤ daysInMonth y m then some ⟨y, m, d⟩
  else none

/-- Claim-side reading for the amended C5: the civil date literally denoted
by the string, provided the string is in ISO `YYYY-MM-DD` format and
denotes a real calendar date (month 1..12 and day within the month). -/
def realDateOf (s : String) : Option CivilDate :=
  match isoDigits s.data with
  | some (y, m, d) => realDateTriple y m d
  | none => none

/-- Claim-side reading of C5: the string is in ISO `YYYY-MM-DD` format and
denotes a real calendar date. -/
def isRealCalendarDateString (s : String) : Bool :=
  (realDateOf s).isSome

/-! ### Date lemmas -/

theorem digit_roundtrip {c : Char} (h : isDigitChar c = true) :
    digitChar (digitVal c) = c := by
  simp only [isDigitChar, Bool.and_eq_true, decide_eq_true_eq] at h
  have : 48 + digitVal c = c.toNat := by unfold digitVal; omega
  rw [digitChar, this, Char.ofNat_toNat]

theorem digitVal_le {c : Char} (h : isDigitChar c = true) : digitVal c ≤ 9 := by
  simp only [isDigitChar, Bool.and_eq_true, decide_eq_true_eq] at h
  unfold digitVal; omega

theorem digitChar_toNat {n : Nat} (h : n ≤ 9) : (digitChar n).toNat = 48 + n := by
  interval_cases n <;> decide

theorem isDigitChar_digitChar {n : Nat} (h : n ≤ 9) :
    isDigitChar (digitChar n) = true := by
  interval_cases n <;> decide

theorem digitVal_digitChar {n : Nat} (h : n ≤ 9) : digitVal (digitChar n) = n := by
  unfold digitVal; rw [digitChar_toNat h]; omega

theorem isoDigits_toISO {l : List Char} {y m d : Nat}
    (h : isoDigits l = some (y, m, d)) :
    y ≤ 9999 ∧ m ≤ 99 ∧ d ≤ 99 ∧ toISODateString ⟨y, m, d⟩ = String.mk l := by
  match l with
  | [] | [_] | [_,_] | [_,_,_] | [_,_,_,_] | [_,_,_,_,_] | [_,_,_,_,_,_]
  | [_,_,_,_,_,_,_] | [_,_,_,_,_,_,_,_] | [_,_,_,_,_,_,_,_,_] =>
    simp [isoDigits] at h
  | c0 :: c1 :: c2 :: c3 :: c4 :: c5 :: c6 :: c7 :: c8 :: c9 :: c10 :: l' =>
    simp [isoDigits] at h
  | [c0, c1, c2, c3, c4, c5, c6, c7, c8, c9] =>
    simp only [isoDigits] at h
    by_cases hc : (c4 == '-' && c7 == '-' &&
        (isDigitChar c0 && isDigitChar c1 && isDigitChar c2 && isDigitChar c3 &&
         isDigitChar c5 && isDigitChar c6 && isDigitChar c8 && isDigitChar c9)) = true
    case neg => rw [if_neg hc] at h; exact absurd h (by simp)
    case pos =>
      rw [if_pos hc] at h
      simp only [Bool.and_eq_true, beq_iff_eq, and_assoc] at hc
      obtain ⟨h4, h7, hd0, hd1, hd2, hd3, hd5, hd6, hd8, hd9⟩ := hc
      simp only [Option.some.injEq, Prod.mk.injEq] at h
      obtain ⟨hy, hm, hd⟩ := h
      have b0 := digitVal_le hd0
      have b1 := digitVal_le hd1
      have b2 := digitVal_le hd2
      have b3 := digitVal_le hd3
      have b5 := digitVal_le hd5
      have b6 := digitVal_le hd6
      have b8 := digitVal_le hd8
      have b9 := digitVal_le hd9
      refine ⟨by omega, by omega, by omega, ?_⟩
      have e0 : y / 1000 % 10 = digitVal c0 := by omega
      have e1 : y / 100 % 10 = digitVal c1 := by omega
      have e2 : y / 10 % 10 = digitVal c2 := by omega
      have e3 : y % 10 = digitVal c3 := by omega
      have e5 : m / 10 % 10 = digitVal c5 := by omega
      have e6 : m % 10 = digitVal c6 := by omega
      have e8 : d / 10 % 10 = digitVal c8 := by omega
      have e9 : d % 10 = digitVal c9 := by omega
      simp only [toISODateString, pad4Chars, pad2Chars, e0, e1, e2, e3, e5, e6,
        e8, e9, digit_roundtrip hd0, digit_roundtrip hd1, digit_roundtrip hd2,
        digit_roundtrip hd3, digit_roundtrip hd5, digit_roundtrip hd6,
        digit_roundtrip hd8, digit_roundtrip hd9, h4, h7,
        List.cons_append, List.nil_append]

theorem isoDigits_of_toISO {y m d : Nat} (hy : y ≤ 9999) (hm : m ≤ 99)
    (hd : d ≤ 99) :
    isoDigits (toISODateString ⟨y, m, d⟩).data = some (y, m, d) := by
  have l4 : y / 1000 % 10 ≤ 9 := Nat.le_of_lt_succ (Nat.mod_lt _ (by omega))
  have l3 : y / 100 % 10 ≤ 9 := Nat.le_of_lt_succ (Nat.mod_lt _ (by omega))
  have l2 : y / 10 % 10 ≤ 9 := Nat.le_of_lt_succ (Nat.mod_lt _ (by omega))
  have l1 : y % 10 ≤ 9 := Nat.le_of_lt_succ (Nat.mod_lt _ (by omega))
  have m2 : m / 10 % 10 ≤ 9 := Nat.le_of_lt_succ (Nat.mod_lt _ (by omega))
  have m1 : m % 10 ≤ 9 := Nat.le_of_lt_succ (Nat.mod_lt _ (by omega))
  have d2 : d / 10 % 10 ≤ 9 := Nat.le_of_lt_succ (Nat.mod_lt _ (by omega))
  have d1 : d % 10 ≤ 9 := Nat.le_of_lt_succ (Nat.mod_lt _ (by omega))
  simp only [toISODateString, pad4Chars, pad2Chars, isoDigits, List.cons_append,
    List.nil_append, isDigitChar_digitChar l4, isDigitChar_digitChar l3,
    isDigitChar_digitChar l2, isDigitChar_digitChar l1, isDigitChar_digitChar m2,
    isDigitChar_digitChar m1, isDigitChar_digitChar d2, isDigitChar_digitChar d1,
    digitVal_digitChar l4, digitVal_digitChar l3, digitVal_digitChar l2,
    digitVal_digitChar l1, digitVal_digitChar m2, digitVal_digitChar m1,
    digitVal_digitChar d2, digitVal_digitChar d1]
  simp only [beq_self_eq_true, Bool.and_self, Bool.true_and, if_true,
    Option.some.injEq, Prod.mk.injEq]
  refine ⟨?_, ?_, ?_⟩ <;> omega

theorem daysInMonth_le_31 (y m : Nat) : daysInMonth y m ≤ 31 := by
  unfold daysInMonth
  split
  · split <;> omega
  · split <;> omega

theorem daysInMonth_pos (y m : Nat) : 1 ≤ daysInMonth y m := by
  unfold daysInMonth
  split
  · split <;> omega
  · split <;> omega

theorem daysInMonth_december (y : Nat) : daysInMonth y 12 = 31 := by
  simp [daysInMonth]

theorem normalizeDate_shape {y m d : Nat} (hm1 : 1 ≤ m) (hm2 : m ≤ 12)
    (hd1 : 1 ≤ d) (hd2 : d ≤ 31) :
    (normalizeDate y m d).year = y ∧ (normalizeDate y m d).month ≤ 12 ∧
      1 ≤ (normalizeDate y m d).day ∧ (normalizeDate y m d).day ≤ 31 := by
  unfold normalizeDate
  split
  case isTrue h => exact ⟨rfl, hm2, hd1, hd2⟩
  case isFalse h =>
    split
    case isTrue h12 =>
      have hm12 : m = 12 := by simpa using h12
      subst hm12
      have h31 : daysInMonth y 12 = 31 := daysInMonth_december y
      exact absurd (by omega : d ≤ daysInMonth y 12) h
    case isFalse h12 =>
      have hne : ¬ m = 12 := by simpa using h12
      have hp := daysInMonth_pos y m
      have hl := daysInMonth_le_31 y m
      refine ⟨rfl, ?_, ?_, ?_⟩
      · show m + 1 ≤ 12
        omega
      · show 1 ≤ d - daysInMonth y m
        omega
      · show d - daysInMonth y m ≤ 31
        omega

theorem normalizeDate_eq_self {y m d : Nat} (hm1 : 1 ≤ m) (hm2 : m ≤ 12)
    (hd1 : 1 ≤ d) :
    normalizeDate y m d = ⟨y, m, d⟩ ↔ d ≤ daysInMonth y m := by
  constructor
  · intro h
    unfold normalizeDate at h
    split at h
    case isTrue hle => exact hle
    case isFalse hle =>
      split at h
      · exact absurd (congrArg CivilDate.year h) (by simp)
      · exact absurd (congrArg CivilDate.month h) (by simp)
  · intro h
    unfold normalizeDate
    rw [if_pos h]

theorem realDateOf_eq_triple {s : String} {y m d : Nat}
    (hiso : isoDigits s.data = some (y, m, d)) :
    realDateOf s = realDateTriple y m d := by
  unfold realDateOf
  rw [hiso]

theorem parseISODateString_eq_triple {s : String} {y m d : Nat}
    (hiso : isoDigits s.data = some (y, m, d)) :
    parseISODateString s = parseTriple y m d := by
  unfold parseISODateString
  rw [hiso]

theorem validateISODate_of_realDate {now : CivilDate} {s : String}
    {t : CivilDate} (h : realDateOf s = some t) :
    validateISODate now s = civilLe t now := by
  cases hiso : isoDigits s.data with
  | none =>
    unfold realDateOf at h
    rw [hiso] at h
    exact absurd h (by simp)
  | some ymd =>
    obtain ⟨y, m, d⟩ := ymd
    rw [realDateOf_eq_triple hiso] at h
    have h' : (if 1 ≤ m && m ≤ 12 && 1 ≤ d && d ≤ daysInMonth y m then
        some (⟨y, m, d⟩ : CivilDate) else none) = some t := h
    by_cases hc : (1 ≤ m && m ≤ 12 && 1 ≤ d && d ≤ daysInMonth y m) = true
    case neg => rw [if_neg hc] at h'; exact absurd h' (by simp)
    case pos =>
      rw [if_pos hc] at h'
      simp only [Option.some.injEq] at h'
      subst h'
      simp only [Bool.and_eq_true, decide_eq_true_eq, and_assoc] at hc
      obtain ⟨hm1, hm2, hd1, hdim⟩ := hc
      obtain ⟨hy, hm99, hd99, hstr⟩ := isoDigits_toISO hiso
      have hd31 : d ≤ 31 := le_trans hdim (daysInMonth_le_31 y m)
      have hn : normalizeDate y m d = ⟨y, m, d⟩ :=
        (normalizeDate_eq_self hm1 hm2 hd1).mpr hdim
      have hfmt : isISOFormatString s = true := by
        unfold isISOFormatString
        rw [hiso]
        rfl
      have hparse : parseISODateString s = some ⟨y, m, d⟩ := by
        rw [parseISODateString_eq_triple hiso]
        unfold parseTriple
        rw [if_pos (by simp [hm1, hm2, hd1, hd31]), hn]
      unfold validateISODate
      rw [hfmt, hparse]
      have hbeq : (toISODateString ⟨y, m, d⟩ == s) = true := by
        rw [hstr]
        exact beq_iff_eq.mpr rfl
      show (civilLe ⟨y, m, d⟩ now && (toISODateString ⟨y, m, d⟩ == s)) =
        civilLe ⟨y, m, d⟩ now
      rw [hbeq, Bool.and_true]

theorem validateISODate_of_not_realDate {now : CivilDate} {s : String}
    (h : realDateOf s = none) : validateISODate now s = false := by
  cases hiso : isoDigits s.data with
  | none =>
    have hfmt : isISOFormatString s = false := by
      unfold isISOFormatString
      rw [hiso]
      rfl
    unfold validateISODate
    rw [hfmt]
    rfl
  | some ymd =>
    obtain ⟨y, m, d⟩ := ymd
    rw [realDateOf_eq_triple hiso] at h
    have h' : (if 1 ≤ m && m ≤ 12 && 1 ≤ d && d ≤ daysInMonth y m then
        some (⟨y, m, d⟩ : CivilDate) else none) = none := h
    have hcond : ¬ ((1 ≤ m && m ≤ 12 && 1 ≤ d && d ≤ daysInMonth y m) = true) := by
      intro hcc
      rw [if_pos hcc] at h'
      exact absurd h' (by simp)
    have hfmt : isISOFormatString s = true := by
      unfold isISOFormatString
      rw [hiso]
      rfl
    by_cases hr31 : (1 ≤ m && m ≤ 12 && 1 ≤ d && d ≤ 31) = true
    case neg =>
      have hparse : parseISODateString s = none := by
        rw [parseISODateString_eq_triple hiso]
        unfold parseTriple
        rw [if_neg hr31]
      unfold validateISODate
      rw [hfmt, hparse]
      rfl
    case pos =>
      have hparse : parseISODateString s = some (normalizeDate y m d) := by
        rw [parseISODateString_eq_triple hiso]
        unfold parseTriple
        rw [if_pos hr31]
      unfold validateISODate
      rw [hfmt, hparse]
      show (civilLe (normalizeDate y m d) now &&
        (toISODateString (normalizeDate y m d) == s)) = false
      simp only [Bool.and_eq_true, decide_eq_true_eq, and_assoc] at hr31
      obtain ⟨hm1, hm2, hd1, hd31⟩ := hr31
      obtain ⟨hy, hm99, hd99, hstr⟩ := isoDigits_toISO hiso
      obtain ⟨hny, hnm, hnd1, hnd31⟩ := @normalizeDate_shape y m d hm1 hm2 hd1 hd31
      have hbf : (toISODateString (normalizeDate y m d) == s) = false := by
        rw [beq_eq_false_iff_ne]
        intro heq
        have heta : (⟨(normalizeDate y m d).year, (normalizeDate y m d).month,
            (normalizeDate y m d).day⟩ : CivilDate) = normalizeDate y m d := rfl
        have hiso2 : isoDigits (toISODateString ⟨(normalizeDate y m d).year,
            (normalizeDate y m d).month, (normalizeDate y m d).day⟩).data =
            some ((normalizeDate y m d).year, (normalizeDate y m d).month,
              (normalizeDate y m d).day) :=
          @isoDigits_of_toISO (normalizeDate y m d).year
            (normalizeDate y m d).month (normalizeDate y m d).day
            (by omega) (by omega) (by omega)
        rw [heta, heq, hiso] at hiso2
        simp only [Option.some.injEq, Prod.mk.injEq] at hiso2
        obtain ⟨ey, em, ed⟩ := hiso2
        rcases hE : normalizeDate y m d with ⟨ny, nm, nd⟩
        rw [hE] at ey em ed
        have ey' : ny = y := ey.symm
        have em' : nm = m := em.symm
        have ed' : nd = d := ed.symm
        have hself : normalizeDate y m d = ⟨y, m, d⟩ := by
          rw [hE, ey', em', ed']
        have hdim := (normalizeDate_eq_self hm1 hm2 hd1).mp hself
        exact hcond (by simp [hm1, hm2, hd1, hdim])
      rw [hbf, Bool.and_false]

/-- Complete characterization of `validateISODate`: it accepts exactly the
ISO-format strings denoting a real calendar date that is on or before the
current UTC day. -/
theorem validateISODate_iff_aux (now : CivilDate) (s : String) :
    validateISODate now s = true ↔
      ∃ t, realDateOf s = some t ∧ civilLe t now = true := by
  cases hreal : realDateOf s with
  | none => simp [validateISODate_of_not_realDate hreal]
  | some t => simp [validateISODate_of_realDate hreal]

/-! ### URL model and `validateProjectUrl`

The validation module calls the platform constructor `new URL(url)` inside
`try`/`catch` and inspects the `protocol` of the result. The WHATWG URL
parser is host functionality, not code of this repository, so it is
abstracted as a parameter: `parseURL url = none` models the constructor
throwing, `some u` models a successful parse with the given `protocol`
(including the trailing colon, as in JS). -/

/-- Result of a successful `new URL(...)`, restricted to the one property
the repository reads. -/
structure URLObj where
  protocol : String
deriving DecidableEq

/-- `validateProjectUrl` from the validation module. Total by construction:
a parse failure (an exception in JS) is the `none` case and yields `false`
rather than propagating. -/
def validateProjectUrl (parseURL : String → Option URLObj) (url : String) :
    Bool :=
  match parseURL url with
  | some urlObj => urlObj.protocol == "https:"
  | none => false

/-! ### The `validateProject` and `validateProjects` functions -/

/-- The constant `VALID_IMPACT_CATEGORIES`. -/
def VALID_IMPACT_CATEGORIES : List String :=
  ["renewable-energy", "conservation", "sustainable-agriculture",
   "waste-management"]

/-- The constant `VALID_REGIONS`. -/
def VALID_REGIONS : List String := ["north-america"]

/-- A `ValidationError` record: field path, message, and the offending
value when the source includes one. -/
structure ValidationError where
  field : String
  message : String
  value : Option JsVal

/-- A `ValidationResult` record. -/
structure ValidationResult where
  isValid : Bool
  errors : List ValidationError

/-- A project object as read by `validateProject`: the function receives
`unknown`, checks that it is an object, and reads exactly these ten
properties, each of which is an arbitrary JS value (`.undefv` models an
absent property). -/
structure RawProject where
  id : JsVal
  title : JsVal
  description : JsVal
  impactCategory : JsVal
  region : JsVal
  coordinates : JsVal
  url : JsVal
  verified : JsVal
  source : JsVal
  dateVerified : JsVal

/-- One required-string check of `validateProject`, shared verbatim by the
`id`, `title` and `description` fields:
`!proj.x || typeof proj.x !== 'string' || proj.x.trim().length === 0`. -/
def requiredStringErrors (field : String) (v : JsVal) : List ValidationError :=
  if !jsTruthy v || !jsIsString v || (jsTrim (jsStrVal v)).length == 0 then
    [⟨field, "Project " ++ field ++ " must be a non-empty string", some v⟩]
  else []

/-- The `impactCategory` membership check:
`!proj.impactCategory || !VALID_IMPACT_CATEGORIES.includes(...)` (the
`includes` comparison is strict equality, so non-strings never match). -/
def categoryErrors (v : JsVal) : List ValidationError :=
  if !jsTruthy v ||
      !(match v with
        | .strv s => VALID_IMPACT_CATEGORIES.contains s
        | _ => false) then
    [⟨"impactCategory",
      "Impact category must be one of: " ++
        String.intercalate ", " VALID_IMPACT_CATEGORIES, some v⟩]
  else []

/-- The `region` membership check. -/
def regionErrors (v : JsVal) : List ValidationError :=
  if !jsTruthy v ||
      !(match v with
        | .strv s => VALID_REGIONS.contains s
        | _ => false) then
    [⟨"region", "Region must be one of: " ++
      String.intercalate ", " VALID_REGIONS, some v⟩]
  else []

/-- The coordinates checks: array shape, length 2, then the range checks
on longitude and latitude. A `NaN` entry passes the range checks because
every JS comparison on `NaN` is false, exactly as in the source. -/
def coordinateErrors (v : JsVal) : List ValidationError :=
  match v with
  | .arrv [lng, lat] =>
    (if !jsIsNumber lng || jsNumLt lng (-180) || jsNumGt lng 180 then
      [⟨"coordinates[0]", "Longitude must be a number between -180 and 180",
        some lng⟩]
    else []) ++
    (if !jsIsNumber lat || jsNumLt lat (-90) || jsNumGt lat 90 then
      [⟨"coordinates[1]", "Latitude must be a number between -90 and 90",
        some lat⟩]
    else [])
  | .arrv coords =>
    [⟨"coordinates",
      "Coordinates must be an array of exactly 2 numbers [longitude, latitude]",
      some (.arrv coords)⟩]
  | _ => [⟨"coordinates", "Coordinates must be an array", some v⟩]

/-- The optional-URL check: only applies when `proj.url !== undefined`. -/
def urlErrors (parseURL : String → Option URLObj) (v : JsVal) :
    List ValidationError :=
  if jsIsUndefined v then []
  else if !jsIsString v || !validateProjectUrl parseURL (jsStrVal v) then
    [⟨"url", "URL must be a valid HTTPS URL", some v⟩]
  else []

/-- The `verified` business rule: when `verified` is present it must be a
boolean, and when it is `true` the project must have a truthy `url`, a
non-empty-trimmed string `source`, and a `dateVerified` accepted by
`validateISODate`. -/
def verifiedErrors (now : CivilDate) (p : RawProject) : List ValidationError :=
  if jsIsUndefined p.verified then []
  else
    match p.verified with
    | .boolv true =>
      (if !jsTruthy p.url then
        [⟨"url", "URL is required when verified is true", none⟩]
      else []) ++
      (if !jsTruthy p.source || !jsIsString p.source ||
          (jsTrim (jsStrVal p.source)).length == 0 then
        [⟨"source", "Source is required when verified is true", some p.source⟩]
      else []) ++
      (if !jsTruthy p.dateVerified || !jsIsString p.dateVerified ||
          !validateISODate now (jsStrVal p.dateVerified) then
        [⟨"dateVerified",
          "Valid ISO date (YYYY-MM-DD) is required when verified is true",
          some p.dateVerified⟩]
      else [])
    | .boolv false => []
    | _ => [⟨"verified", "Verified must be a boolean", some p.verified⟩]

/-- The optional `source` check. -/
def optionalSourceErrors (v : JsVal) : List ValidationError :=
  if !jsIsUndefined v &&
      (!jsIsString v || (jsTrim (jsStrVal v)).length == 0) then
    [⟨"source", "Source must be a non-empty string when provided", some v⟩]
  else []

/-- The optional `dateVerified` check. -/
def optionalDateErrors (now : CivilDate) (v : JsVal) : List ValidationError :=
  if !jsIsUndefined v && (!jsIsString v || !validateISODate now (jsStrVal v)) then
    [⟨"dateVerified",
      "Date verified must be a valid ISO date (YYYY-MM-DD) when provided",
      some v⟩]
  else []

/-- Error list of `validateProject` from the validation module, as the
concatenation of its checks in source order. The leading
`typeof project !== 'object'` guard is always passed here because
`RawProject` models an object. The current UTC day `now` and the platform
URL parser are the two pieces of host state the function consults. -/
def projectErrors (parseURL : String → Option URLObj) (now : CivilDate)
    (p : RawProject) : List ValidationError :=
  requiredStringErrors "id" p.id ++
  requiredStringErrors "title" p.title ++
  requiredStringErrors "description" p.description ++
  categoryErrors p.impactCategory ++
  regionErrors p.region ++
  coordinateErrors p.coordinates ++
  urlErrors parseURL p.url ++
  verifiedErrors now p ++
  optionalSourceErrors p.source ++
  optionalDateErrors now p.dateVerified

/-- Result assembly of `validateProject`:
`return { isValid: errors.length === 0, errors }`. -/
def validateProject (parseURL : String → Option URLObj) (now : CivilDate)
    (p : RawProject) : ValidationResult :=
  ⟨(projectErrors parseURL now p).length == 0, projectErrors parseURL now p⟩

/-- Indexed per-project errors of `validateProjects`: each invalid
project's errors are re-labelled with the `projects[i].field` path and a
`Project i:` message label. -/
def indexedProjectErrors (parseURL : String → Option URLObj)
    (now : CivilDate) : Nat → List RawProject → List ValidationError
  | _, [] => []
  | i, p :: rest =>
    (let r := validateProject parseURL now p
     if !r.isValid then
       r.errors.map (fun e =>
         ⟨"projects[" ++ toString i ++ "]." ++ e.field,
          "Project " ++ toString i ++ ": " ++ e.message, e.value⟩)
     else []) ++ indexedProjectErrors parseURL now (i + 1) rest

/-- Duplicate-ID detection of `validateProjects`: a growing set of seen
string ids, reporting each re-occurrence. -/
def dupIdErrorsAux : Nat → List String → List RawProject → List ValidationError
  | _, _, [] => []
  | i, seen, p :: rest =>
    match p.id with
    | .strv s =>
      if seen.contains s then
        ⟨"projects[" ++ toString i ++ "].id", "Duplicate project ID: " ++ s,
          some (.strv s)⟩ :: dupIdErrorsAux (i + 1) seen rest
      else dupIdErrorsAux (i + 1) (s :: seen) rest
    | _ => dupIdErrorsAux (i + 1) seen rest

/-- Error list of `validateProjects`: the empty-array check, the indexed
per-project errors, and the duplicate-ID errors, in source order. -/
def projectsErrors (parseURL : String → Option URLObj) (now : CivilDate)
    (projects : List RawProject) : List ValidationError :=
  (if projects.length == 0 then
    [⟨"projects", "Projects array cannot be empty", none⟩]
  else []) ++
  indexedProjectErrors parseURL now 0 projects ++
  dupIdErrorsAux 0 [] projects

/-- `validateProjects` from the validation module. The input is a Lean
list, so the leading `Array.isArray` guard always passes. -/
def validateProjects (parseURL : String → Option URLObj) (now : CivilDate)
    (projects : List RawProject) : ValidationResult :=
  ⟨(projectsErrors parseURL now projects).length == 0,
   projectsErrors parseURL now projects⟩

/-! ### The static project dataset (`src/lib/data/projects.ts`)

Each record is embedded as the JS object literal it is in the source, so
that it can be fed to `validateProject` and `validateProjects` directly.
Coordinates are the exact decimal literals of the source, transcribed as
`DecNum` fractions (for example `-106.3468` is `-1063468 / 10 ^ 4`). -/

namespace Data

/-- Record `two-billion-trees` of the dataset. -/
def twoBillionTrees : RawProject where
  id := .strv "two-billion-trees"
  title := .strv "Two Billion Trees Program"
  description := .strv ("The Government of Canada\x27s commitment to plant two billion trees by 2031 to help fight climate change, create jobs, and support biodiversity. This national reforestation initiative works with provinces, territories, Indigenous communities, and private landowners to restore forests across the country.")
  impactCategory := .strv "conservation"
  region := .strv "north-america"
  coordinates := .arrv [.numv (.val (DecNum.mk (-1063468) 4)), .numv (.val (DecNum.mk 529399 4))]
  url := .strv "https://www.canada.ca/en/campaign/2-billion-trees.html"
  verified := .boolv true
  source := .strv "Government of Canada"
  dateVerified := .strv "2025-08-13"

/-- Record `travers-solar` of the dataset. -/
def traversSolar : RawProject where
  id := .strv "travers-solar"
  title := .strv "Travers Solar Project"
  description := .strv ("Canada\x27s largest solar project located near Vulcan, Alberta. This 465 MW solar facility generates clean electricity for approximately 150,000 homes and represents a significant milestone in Alberta\x27s renewable energy transition, supporting the province\x27s net-zero goals.")
  impactCategory := .strv "renewable-energy"
  region := .strv "north-america"
  coordinates := .arrv [.numv (.val (DecNum.mk (-113335) 3)), .numv (.val (DecNum.mk 50506 3))]
  url := .strv "https://www.greengatepower.com/travers-solar"
  verified := .boolv true
  source := .strv "Greengate Power Corporation"
  dateVerified := .strv "2025-08-13"

/-- Record `toronto-urban-agriculture` of the dataset. -/
def torontoUrbanAgriculture : RawProject where
  id := .strv "toronto-urban-agriculture"
  title := .strv "Toronto Urban Agriculture Strategy"
  description := .strv ("The City of Toronto\x27s comprehensive strategy to increase local food production, improve food security, and reduce environmental impacts through urban farming initiatives. This includes community gardens, rooftop farming, and innovative growing technologies across Canada\x27s largest city.")
  impactCategory := .strv "sustainable-agriculture"
  region := .strv "north-america"
  coordinates := .arrv [.numv (.val (DecNum.mk (-793832) 4)), .numv (.val (DecNum.mk 436532 4))]
  url := .strv "https://www.toronto.ca/city-government/planning-development/planning-studies-initiatives/urban-agriculture/"
  verified := .boolv true
  source := .strv "City of Toronto"
  dateVerified := .strv "2025-08-13"

/-- Record `vancouver-zero-waste` of the dataset. -/
def vancouverZeroWaste : RawProject where
  id := .strv "vancouver-zero-waste"
  title := .strv "Vancouver Zero Waste 2040"
  description := .strv ("Vancouver\x27s ambitious plan to become a zero waste city by 2040, focusing on waste reduction, reuse, and recycling programs. This comprehensive initiative includes circular economy principles, extended producer responsibility, and community engagement to eliminate waste sent to landfills.")
  impactCategory := .strv "waste-management"
  region := .strv "north-america"
  coordinates := .arrv [.numv (.val (DecNum.mk (-1231207) 4)), .numv (.val (DecNum.mk 492827 4))]
  url := .strv "https://vancouver.ca/green-vancouver/zero-waste-vancouver.aspx"
  verified := .boolv true
  source := .strv "City of Vancouver"
  dateVerified := .strv "2025-08-13"

/-- Record `everwind-green-hydrogen` of the dataset. -/
def everwindGreenHydrogen : RawProject where
  id := .strv "everwind-green-hydrogen"
  title := .strv "EverWind Green Hydrogen Project"
  description := .strv ("Atlantic Canada\x27s first large-scale green hydrogen and ammonia production facility in Nova Scotia. This project harnesses wind energy to produce clean hydrogen for export and domestic use, positioning Canada as a leader in the global green hydrogen economy.")
  impactCategory := .strv "renewable-energy"
  region := .strv "north-america"
  coordinates := .arrv [.numv (.val (DecNum.mk (-635859) 4)), .numv (.val (DecNum.mk 446820 4))]
  url := .strv "https://everwindfuels.com/"
  verified := .boolv true
  source := .strv "EverWind Fuels"
  dateVerified := .strv "2025-08-13"

/-- Record `ducks-unlimited-prairie-wetlands` of the dataset. -/
def ducksUnlimitedPrairieWetlands : RawProject where
  id := .strv "ducks-unlimited-prairie-wetlands"
  title := .strv "Prairie Wetland Conservation (Ducks Unlimited)"
  description := .strv ("Ducks Unlimited Canada\x27s ongoing wetland conservation efforts across the Prairie Pothole Region of Manitoba, Saskatchewan, and Alberta. This critical program protects and restores wetland habitats that support waterfowl, improve water quality, and provide natural climate solutions through carbon storage.")
  impactCategory := .strv "conservation"
  region := .strv "north-america"
  coordinates := .arrv [.numv (.val (DecNum.mk (-971384) 4)), .numv (.val (DecNum.mk 498951 4))]
  url := .strv "https://www.ducks.ca/places/manitoba/"
  verified := .boolv true
  source := .strv "Ducks Unlimited Canada"
  dateVerified := .strv "2025-08-13"

/-- The exported `projects` array of the data module. -/
def projects : List RawProject :=
  [twoBillionTrees, traversSolar, torontoUrbanAgriculture,
   vancouverZeroWaste, everwindGreenHydrogen, ducksUnlimitedPrairieWetlands]

end Data

/-! ### Validation lemmas for the dataset -/

theorem jsIsUndefined_strv (s : String) : jsIsUndefined (.strv s) = false := rfl

theorem jsIsUndefined_boolv (b : Bool) : jsIsUndefined (.boolv b) = false := rfl

theorem jsTruthy_strv (s : String) : jsTruthy (.strv s) = (s != "") := rfl

theorem jsIsString_strv (s : String) : jsIsString (.strv s) = true := rfl

theorem jsStrVal_strv (s : String) : jsStrVal (.strv s) = s := rfl

/-- The `2025-08-13` verification date of every dataset record is accepted
by `validateISODate` exactly on any UTC day from 2025-08-13 on. -/
theorem validateISODate_dataset (now : CivilDate)
    (hnow : civilLe ⟨2025, 8, 13⟩ now = true) :
    validateISODate now "2025-08-13" = true := by
  rw [validateISODate_iff_aux]
  exact ⟨⟨2025, 8, 13⟩, by decide, hnow⟩

theorem urlErrors_of_https {parseURL : String → Option URLObj} {u : String}
    (h : (parseURL u).map URLObj.protocol = some "https:") :
    urlErrors parseURL (.strv u) = [] := by
  unfold urlErrors
  cases hp : parseURL u with
  | none => rw [hp] at h; exact absurd h (by simp)
  | some r =>
    rw [hp] at h
    simp only [Option.map_some', Option.some.injEq] at h
    have hvp : validateProjectUrl parseURL u = true := by
      unfold validateProjectUrl
      rw [hp]
      exact beq_iff_eq.mpr h
    simp [jsIsUndefined_strv, jsIsString_strv, jsStrVal_strv, hvp]

theorem optionalDateErrors_of_valid {now : CivilDate} {d : String}
    (h : validateISODate now d = true) :
    optionalDateErrors now (.strv d) = [] := by
  unfold optionalDateErrors
  simp [jsIsUndefined_strv, jsIsString_strv, jsStrVal_strv, h]

theorem verifiedErrors_of_valid {now : CivilDate} {p : RawProject}
    {u src d : String}
    (hver : p.verified = .boolv true)
    (hu : p.url = .strv u) (hu2 : u ≠ "")
    (hs : p.source = .strv src) (hs2 : (jsTrim src).length ≠ 0) (hs3 : src ≠ "")
    (hd : p.dateVerified = .strv d) (hdok : validateISODate now d = true) :
    verifiedErrors now p = [] := by
  have hd2 : d ≠ "" := by
    intro he
    subst he
    have hfalse : validateISODate now "" = false := rfl
    rw [hfalse] at hdok
    exact absurd hdok (by simp)
  unfold verifiedErrors
  rw [hver, hu, hs, hd]
  simp [jsIsUndefined_boolv, jsTruthy_strv, jsIsString_strv, jsStrVal_strv,
    hu2, hs2, hs3, hd2, hdok]

/-- Validity of one dataset record: the six concrete checks are discharged
by reduction, the URL check by the host-parser hypothesis, and the
verified-block and date checks through `validateISODate_dataset`. -/
theorem validateProject_ok {parseURL : String → Option URLObj}
    {now : CivilDate} {p : RawProject} {u src : String}
    (h1 : requiredStringErrors "id" p.id = [])
    (h2 : requiredStringErrors "title" p.title = [])
    (h3 : requiredStringErrors "description" p.description = [])
    (h4 : categoryErrors p.impactCategory = [])
    (h5 : regionErrors p.region = [])
    (h6 : coordinateErrors p.coordinates = [])
    (hver : p.verified = .boolv true)
    (hu : p.url = .strv u) (hu2 : u ≠ "")
    (hs : p.source = .strv src) (hs2 : (jsTrim src).length ≠ 0) (hs3 : src ≠ "")
    (h9 : optionalSourceErrors p.source = [])
    (hd : p.dateVerified = .strv "2025-08-13")
    (hnow : civilLe ⟨2025, 8, 13⟩ now = true)
    (hurl : (parseURL u).map URLObj.protocol = some "https:") :
    validateProject parseURL now p = ⟨true, []⟩ := by
  have hdok := validateISODate_dataset now hnow
  have r7 : urlErrors parseURL p.url = [] := by
    rw [hu]
    exact urlErrors_of_https hurl
  have r8 : verifiedErrors now p = [] :=
    verifiedErrors_of_valid hver hu hu2 hs hs2 hs3 hd hdok
  have r10 : optionalDateErrors now p.dateVerified = [] := by
    rw [hd]
    exact optionalDateErrors_of_valid hdok
  unfold validateProject projectErrors
  rw [h1, h2, h3, h4, h5, h6, r7, r8, h9, r10]
  rfl

theorem validateProject_twoBillionTrees (parseURL : String → Option URLObj)
    (now : CivilDate) (hnow : civilLe ⟨2025, 8, 13⟩ now = true)
    (hurl : (parseURL "https://www.canada.ca/en/campaign/2-billion-trees.html").map
      URLObj.protocol = some "https:") :
    validateProject parseURL now Data.twoBillionTrees = ⟨true, []⟩ :=
  validateProject_ok rfl rfl rfl rfl rfl rfl rfl rfl (by decide) rfl
    (by decide) (by decide) rfl rfl hnow hurl

theorem validateProject_traversSolar (parseURL : String → Option URLObj)
    (now : CivilDate) (hnow : civilLe ⟨2025, 8, 13⟩ now = true)
    (hurl : (parseURL "https://www.greengatepower.com/travers-solar").map
      URLObj.protocol = some "https:") :
    validateProject parseURL now Data.traversSolar = ⟨true, []⟩ :=
  validateProject_ok rfl rfl rfl rfl rfl rfl rfl rfl (by decide) rfl
    (by decide) (by decide) rfl rfl hnow hurl

theorem validateProject_torontoUrbanAgriculture (parseURL : String → Option URLObj)
    (now : CivilDate) (hnow : civilLe ⟨2025, 8, 13⟩ now = true)
    (hurl : (parseURL "https://www.toronto.ca/city-government/planning-development/planning-studies-initiatives/urban-agriculture/").map
      URLObj.protocol = some "https:") :
    validateProject parseURL now Data.torontoUrbanAgriculture = ⟨true, []⟩ :=
  validateProject_ok rfl rfl rfl rfl rfl rfl rfl rfl (by decide) rfl
    (by decide) (by decide) rfl rfl hnow hurl

theorem validateProject_vancouverZeroWaste (parseURL : String → Option URLObj)
    (now : CivilDate) (hnow : civilLe ⟨2025, 8, 13⟩ now = true)
    (hurl : (parseURL "https://vancouver.ca/green-vancouver/zero-waste-vancouver.aspx").map
      URLObj.protocol = some "https:") :
    validateProject parseURL now Data.vancouverZeroWaste = ⟨true, []⟩ :=
  validateProject_ok rfl rfl rfl rfl rfl rfl rfl rfl (by decide) rfl
    (by decide) (by decide) rfl rfl hnow hurl

theorem validateProject_everwindGreenHydrogen (parseURL : String → Option URLObj)
    (now : CivilDate) (hnow : civilLe ⟨2025, 8, 13⟩ now = true)
    (hurl : (parseURL "https://everwindfuels.com/").map
      URLObj.protocol = some "https:") :
    validateProject parseURL now Data.everwindGreenHydrogen = ⟨true, []⟩ :=
  validateProject_ok rfl rfl rfl rfl rfl rfl rfl rfl (by decide) rfl
    (by decide) (by decide) rfl rfl hnow hurl

theorem validateProject_ducksUnlimited (parseURL : String → Option URLObj)
    (now : CivilDate) (hnow : civilLe ⟨2025, 8, 13⟩ now = true)
    (hurl : (parseURL "https://www.ducks.ca/places/manitoba/").map
      URLObj.protocol = some "https:") :
    validateProject parseURL now Data.ducksUnlimitedPrairieWetlands = ⟨true, []⟩ :=
  validateProject_ok rfl rfl rfl rfl rfl rfl rfl rfl (by decide) rfl
    (by decide) (by decide) rfl rfl hnow hurl

/-- Validity of the full dataset under `validateProjects`: no record errors
and no duplicate-ID errors. -/
theorem validateProjects_dataset (parseURL : String → Option URLObj)
    (now : CivilDate) (hnow : civilLe ⟨2025, 8, 13⟩ now = true)
    (hurl : ∀ p ∈ Data.projects,
      (parseURL (jsStrVal p.url)).map URLObj.protocol = some "https:") :
    validateProjects parseURL now Data.projects = ⟨true, []⟩ := by
  have u1 : (parseURL "https://www.canada.ca/en/campaign/2-billion-trees.html").map
      URLObj.protocol = some "https:" :=
    hurl Data.twoBillionTrees (by simp [Data.projects])
  have u2 : (parseURL "https://www.greengatepower.com/travers-solar").map
      URLObj.protocol = some "https:" :=
    hurl Data.traversSolar (by simp [Data.projects])
  have u3 : (parseURL "https://www.toronto.ca/city-government/planning-development/planning-studies-initiatives/urban-agriculture/").map
      URLObj.protocol = some "https:" :=
    hurl Data.torontoUrbanAgriculture (by simp [Data.projects])
  have u4 : (parseURL "https://vancouver.ca/green-vancouver/zero-waste-vancouver.aspx").map
      URLObj.protocol = some "https:" :=
    hurl Data.vancouverZeroWaste (by simp [Data.projects])
  have u5 : (parseURL "https://everwindfuels.com/").map
      URLObj.protocol = some "https:" :=
    hurl Data.everwindGreenHydrogen (by simp [Data.projects])
  have u6 : (parseURL "https://www.ducks.ca/places/manitoba/").map
      URLObj.protocol = some "https:" :=
    hurl Data.ducksUnlimitedPrairieWetlands (by simp [Data.projects])
  have p1 := validateProject_twoBillionTrees parseURL now hnow u1
  have p2 := validateProject_traversSolar parseURL now hnow u2
  have p3 := validateProject_torontoUrbanAgriculture parseURL now hnow u3
  have p4 := validateProject_vancouverZeroWaste parseURL now hnow u4
  have p5 := validateProject_everwindGreenHydrogen parseURL now hnow u5
  have p6 := validateProject_ducksUnlimited parseURL now hnow u6
  have hidx : indexedProjectErrors parseURL now 0 Data.projects = [] := by
    unfold Data.projects
    simp [indexedProjectErrors, p1, p2, p3, p4, p5, p6]
  have hdup : dupIdErrorsAux 0 [] Data.projects = [] := rfl
  have hlen : (Data.projects.length == 0) = false := rfl
  unfold validateProjects projectsErrors
  rw [hidx, hdup, hlen]
  rfl

/-! ### The projects store (`src/lib/stores/projects.ts`)

The store holds a `ProjectsState` and exposes a derived `filteredProjects`
view plus four filter operations, each implemented with `update` and an
object spread that replaces only the `filters` record. -/

/-- The typed `Project` record of `$lib/types`. The literal-union fields
`impactCategory` and `region` are plain strings at runtime. `coordinates`
is typed `[number, number]`, but the marker component re-validates it at
runtime, so it is kept as a raw JS value here. -/
structure Project where
  id : String
  title : String
  description : String
  impactCategory : String
  region : String
  coordinates : JsVal
  url : Option String := none
  verified : Option Bool := none
  source : Option String := none
  dateVerified : Option String := none

/-- The `FilterState` record: `region` and `impactCategory`, each
`string | null`. -/
structure FilterState where
  region : Option String
  impactCategory : Option String

/-- The `ProjectsState` record. -/
structure ProjectsState where
  allProjects : List Project
  filters : FilterState

/-- Truthiness of a `string | null` value, as tested by
`if ($state.filters.region)`: `null` and the empty string are falsy. -/
def strTruthy : Option String → Bool
  | some s => s != ""
  | none => false

/-- The derived `filteredProjects` store: start from `allProjects`, apply
the region filter when truthy, then the impact-category filter when
truthy. The comparisons are `===` between a project field (a string) and
the filter (`string | null`). -/
def filteredProjects (state : ProjectsState) : List Project :=
  let filtered := state.allProjects
  let filtered :=
    if strTruthy state.filters.region then
      filtered.filter (fun project => some project.region == state.filters.region)
    else filtered
  let filtered :=
    if strTruthy state.filters.impactCategory then
      filtered.filter (fun project =>
        some project.impactCategory == state.filters.impactCategory)
    else filtered
  filtered

/-- The `updateFilters` operation: replace the whole filters record with a
copy of the argument. -/
def updateFilters (filters : FilterState) (state : ProjectsState) :
    ProjectsState :=
  { state with filters := { region := filters.region,
                            impactCategory := filters.impactCategory } }

/-- The `setRegionFilter` operation. -/
def setRegionFilter (region : Option String) (state : ProjectsState) :
    ProjectsState :=
  { state with filters := { state.filters with region := region } }

/-- The `setImpactCategoryFilter` operation. -/
def setImpactCategoryFilter (impactCategory : Option String)
    (state : ProjectsState) : ProjectsState :=
  { state with filters := { state.filters with
                              impactCategory := impactCategory } }

/-- The `clearFilters` operation. -/
def clearFilters (state : ProjectsState) : ProjectsState :=
  { state with filters := { region := none, impactCategory := none } }

/-! ### The map store (`src/lib/stores/map`) -/

/-- The `MapState` record. The Mapbox map instance type is abstract; the
`instance` field is rendered `inst` (`instance` is a Lean keyword). -/
structure MapState (M : Type) where
  inst : Option M
  isLoaded : Bool
  error : Option String
  isInteracting : Bool

/-- The `setInstance` operation: store the instance and clear errors. -/
def setInstance {M : Type} (map : M) (state : MapState M) : MapState M :=
  { state with inst := some map, error := none }

/-- The `setLoaded` operation. -/
def setLoaded {M : Type} (loaded : Bool) (state : MapState M) : MapState M :=
  { state with isLoaded := loaded }

/-- The `setError` operation: set the error message and mark the map as
not loaded. -/
def setError {M : Type} (error : Option String) (state : MapState M) :
    MapState M :=
  { state with error := error, isLoaded := false }

/-- The `setInteracting` operation. -/
def setInteracting {M : Type} (interacting : Bool) (state : MapState M) :
    MapState M :=
  { state with isInteracting := interacting }

/-! ### The error-classification module (`src/lib/utils/errors.ts`) -/

/-- An `Error` value as classified by `handleError`: the three custom
subclasses of the module, or any other `Error` instance. -/
inductive JsError where
  | projectDataError (message : String) (cause : Option JsError)
  | validationError (message : String) (field : Option String)
      (value : Option JsVal)
  | mapError (message : String) (cause : Option JsError)
  | otherError (message : String)

/-- An `unknown` value passed to `handleError`: either an `Error` instance
or any non-`Error` JS value. -/
inductive JsUnknown where
  | err (e : JsError)
  | notError (v : JsVal)

/-- The `ErrorSeverity` enum. -/
inductive ErrorSeverity where
  | low
  | medium
  | high
  | critical
deriving DecidableEq

/-- String value of an `ErrorSeverity` enum member. -/
def ErrorSeverity.jsValue : ErrorSeverity → String
  | .low => "low"
  | .medium => "medium"
  | .high => "high"
  | .critical => "critical"

/-- The `ErrorInfo` record. The timestamp `new Date()` is modelled as an
abstract tick passed in by the caller. -/
structure ErrorInfo where
  message : String
  severity : ErrorSeverity
  timestamp : Nat
  context : Option String
  cause : Option JsError

/-- The `createErrorInfo` constructor. -/
def createErrorInfo (timestamp : Nat) (message : String)
    (severity : ErrorSeverity) (context : Option String)
    (cause : Option JsError) : ErrorInfo :=
  ⟨message, severity, timestamp, context, cause⟩

/-- The `handleError` classifier: the `instanceof` chain tries
`ProjectDataError`, `ValidationError`, `MapError`, then plain `Error`;
anything else yields the unknown-error message. Total by construction, so
it never throws. -/
def handleError (timestamp : Nat) (error : JsUnknown)
    (context : Option String) : ErrorInfo :=
  match error with
  | .err (.projectDataError m c) =>
    createErrorInfo timestamp ("Project data error: " ++ m) .high context c
  | .err (.validationError m _ _) =>
    createErrorInfo timestamp ("Validation error: " ++ m) .medium context none
  | .err (.mapError m c) =>
    createErrorInfo timestamp ("Map error: " ++ m) .high context c
  | .err (.otherError m) =>
    createErrorInfo timestamp m .medium context (some (.otherError m))
  | .notError _ =>
    createErrorInfo timestamp "An unknown error occurred" .medium context none

/-! ### The `uniqueBy` helper (formatting/helpers module) -/

/-- Loop of `uniqueBy`: `array.filter` over a mutable `seen` set; a kept
item adds its key to `seen`, a dropped item leaves it unchanged. -/
def uniqueByAux {α κ : Type} [DecidableEq κ] (keyFn : α → κ)
    (seen : List κ) : List α → List α
  | [] => []
  | x :: xs =>
    if seen.contains (keyFn x) then uniqueByAux keyFn seen xs
    else x :: uniqueByAux keyFn (keyFn x :: seen) xs

/-- `uniqueBy` from the helpers module. Keys in the source are
`string | number`; any type with decidable equality models the `Set.has`
comparison. -/
def uniqueBy {α κ : Type} [DecidableEq κ] (array : List α)
    (keyFn : α → κ) : List α :=
  uniqueByAux keyFn [] array

/-- Claim-side reading of C8: the subsequence keeping exactly the first
occurrence of each key value. -/
def firstOccurrences {α κ : Type} [DecidableEq κ] (keyFn : α → κ) :
    List α → List α
  | [] => []
  | x :: xs =>
    x :: firstOccurrences keyFn (xs.filter fun y => keyFn y != keyFn x)
termination_by l => l.length
decreasing_by
  simp only [List.length_cons]
  exact Nat.lt_succ_of_le (List.length_filter_le _ _)

/-! ### Marker reconciliation (`ProjectMarkers.svelte`)

The `markers` state is a JS `Map` from project id to the Mapbox marker
object, modelled as an insertion-ordered association list with unique
keys. Creating a marker (`createMarkerElement` plus
`new mapboxgl.Marker(el).setLngLat(...).addTo(map)`) is DOM work,
abstracted as a function `create`; it always yields a fresh object. -/

/-- An association-list model of the JS `Map` held in `markers`. -/
abbrev MarkerMap (M : Type) := List (String × M)

/-- Key list of a marker map (`markers.keys()`). -/
def markerKeys {M : Type} (m : MarkerMap M) : List String := m.map Prod.fst

/-- Lookup (`markers.get(k)`). -/
def markerGet {M : Type} (m : MarkerMap M) (k : String) : Option M :=
  (m.find? (fun e => e.1 == k)).map Prod.snd

/-- Insertion (`markers.set(k, v)`): replace in place when the key is
present, append otherwise. -/
def markerSet {M : Type} (m : MarkerMap M) (k : String) (v : M) :
    MarkerMap M :=
  match m with
  | [] => [(k, v)]
  | e :: rest => if e.1 == k then (k, v) :: rest else e :: markerSet rest k v

/-- The runtime coordinate validation inside the creation loop of
`updateMarkers`: an array of exactly two values, each a number and not
`NaN`. -/
def validCoordinates (v : JsVal) : Bool :=
  match v with
  | .arrv [lng, lat] =>
    jsIsNumber lng && jsIsNumber lat && !jsIsNaN lng && !jsIsNaN lat
  | _ => false

/-- One iteration of the creation loop of `updateMarkers`: skip when a
marker already existed for the id (the pre-removal key set), skip when the
coordinates fail validation, otherwise create and insert a marker. -/
def addMarkerStep {M : Type} (create : Project → M)
    (existingMarkerIds : List String) (acc : MarkerMap M) (p : Project) :
    MarkerMap M :=
  if existingMarkerIds.contains p.id then acc
  else if validCoordinates p.coordinates then markerSet acc p.id (create p)
  else acc

/-- `updateMarkers` from `ProjectMarkers.svelte`: on a missing map
instance it warns and returns; otherwise it removes the markers whose
project id is not among the filtered ids, then walks the filtered projects
creating markers for ids that had none (`existingMarkerIds` is captured
before the removal pass, as in the source). -/
def updateMarkers {M : Type} (mapInstance : Option Unit)
    (create : Project → M) (markers : MarkerMap M)
    (projects : List Project) : MarkerMap M :=
  match mapInstance with
  | none => markers
  | some _ =>
    let currentProjectIds := projects.map Project.id
    let existingMarkerIds := markerKeys markers
    let kept := markers.filter (fun e => currentProjectIds.contains e.1)
    projects.foldl (addMarkerStep create existingMarkerIds) kept

/-! ### Claim theorems -/

/-- C1: for every projects-store state, the derived filtered view is the
filter of `allProjects` keeping exactly the projects whose `region` equals
the region filter whenever that filter is a truthy (non-null, non-empty)
string, and whose `impactCategory` equals the category filter whenever
that filter is truthy, in the original order; when both filters are null
the view is `allProjects` itself. -/
theorem filteredProjects_spec (s : ProjectsState) :
    filteredProjects s = s.allProjects.filter (fun p =>
      (!strTruthy s.filters.region || (some p.region == s.filters.region)) &&
      (!strTruthy s.filters.impactCategory ||
        (some p.impactCategory == s.filters.impactCategory))) ∧
    filteredProjects { s with filters := ⟨none, none⟩ } = s.allProjects := by
  constructor
  · unfold filteredProjects
    by_cases hr : strTruthy s.filters.region = true
    · by_cases hc : strTruthy s.filters.impactCategory = true
      · simp only [hr, hc, if_true, Bool.not_true, Bool.false_or,
          List.filter_filter]
        exact List.filter_congr (fun a _ => by rw [Bool.and_comm])
      · have hc' : strTruthy s.filters.impactCategory = false := by
          simpa using hc
        simp [hr, hc']
    · have hr' : strTruthy s.filters.region = false := by simpa using hr
      by_cases hc : strTruthy s.filters.impactCategory = true
      · simp [hr', hc]
      · have hc' : strTruthy s.filters.impactCategory = false := by
          simpa using hc
        simp [hr', hc']
  · rfl

/-- C10: each of the four filter operations of the projects store leaves
the `allProjects` field unchanged; only the `filters` record is replaced. -/
theorem filterOps_preserve_allProjects (s : ProjectsState) (f : FilterState)
    (r c : Option String) :
    (updateFilters f s).allProjects = s.allProjects ∧
    (setRegionFilter r s).allProjects = s.allProjects ∧
    (setImpactCategoryFilter c s).allProjects = s.allProjects ∧
    (clearFilters s).allProjects = s.allProjects :=
  ⟨rfl, rfl, rfl, rfl⟩

/-- C9: on any prior map-store state, `setError` leaves the store with
`error` equal to its argument and `isLoaded` false, and leaves `instance`
and `isInteracting` unchanged. -/
theorem setError_frame {M : Type} (s : MapState M) (e : Option String) :
    (setError e s).error = e ∧ (setError e s).isLoaded = false ∧
    (setError e s).inst = s.inst ∧
    (setError e s).isInteracting = s.isInteracting :=
  ⟨rfl, rfl, rfl, rfl⟩

/-- C7: `handleError` (total by construction, so it never throws)
classifies `ProjectDataError` and `MapError` as HIGH, `ValidationError` as
MEDIUM, any other `Error` as MEDIUM with that error's message, and any
non-`Error` value as MEDIUM with the unknown-error message. -/
theorem handleError_classification (ts : Nat) (ctx : Option String)
    (m : String) (c : Option JsError) (f : Option String) (v0 : Option JsVal)
    (v : JsVal) :
    (handleError ts (.err (.projectDataError m c)) ctx).severity = .high ∧
    (handleError ts (.err (.mapError m c)) ctx).severity = .high ∧
    (handleError ts (.err (.validationError m f v0)) ctx).severity = .medium ∧
    (handleError ts (.err (.otherError m)) ctx).severity = .medium ∧
    (handleError ts (.err (.otherError m)) ctx).message = m ∧
    (handleError ts (.notError v) ctx).severity = .medium ∧
    (handleError ts (.notError v) ctx).message = "An unknown error occurred" :=
  ⟨rfl, rfl, rfl, rfl, rfl, rfl, rfl⟩

/-- C6: `validateProjectUrl` is total by construction (the catch branch is
the `none` case of the host parser, so no exception propagates), returns
true exactly when the string parses as a URL with protocol `https:`, and
returns false for every `http:` URL and for every string the parser
rejects. -/
theorem validateProjectUrl_spec (parseURL : String → Option URLObj)
    (url : String) :
    (validateProjectUrl parseURL url = true ↔
      ∃ u, parseURL url = some u ∧ u.protocol = "https:") ∧
    (∀ u, parseURL url = some u → u.protocol = "http:" →
      validateProjectUrl parseURL url = false) ∧
    (parseURL url = none → validateProjectUrl parseURL url = false) := by
  unfold validateProjectUrl
  cases hp : parseURL url with
  | none => simp
  | some r =>
    refine ⟨by simp [beq_iff_eq], ?_, ?_⟩
    · intro u hu hh
      simp only [Option.some.injEq] at hu
      subst hu
      show (r.protocol == "https:") = false
      rw [hh]
      rfl
    · intro h
      exact absurd h (by simp)

/-- C5 counterexample: at the concrete current UTC day 2026-10-12, the
string `9999-12-31` is in ISO format and denotes a real calendar date, yet
`validateISODate` rejects it, because the function also rejects dates
after the current time; so acceptance is not equivalent to being a real
ISO calendar date. -/
theorem validateISODate_counterexample :
    isRealCalendarDateString "9999-12-31" = true ∧
    validateISODate ⟨2026, 10, 12⟩ "9999-12-31" = false :=
  ⟨by decide, by decide⟩

/-- C5 (amended): `validateISODate` returns true iff the string is in ISO
`YYYY-MM-DD` format, denotes a real calendar date, and that date is not
after the current UTC day. -/
theorem validateISODate_amended (now : CivilDate) (s : String) :
    validateISODate now s = true ↔
      ∃ t, realDateOf s = some t ∧ civilLe t now = true :=
  validateISODate_iff_aux now s

/-! ### Lemmas for the verified-project business rule -/

theorem mem_projectErrors_of_mem_verified {e : ValidationError}
    {parseURL : String → Option URLObj} {now : CivilDate} {p : RawProject}
    (h : e ∈ verifiedErrors now p) : e ∈ projectErrors parseURL now p := by
  unfold projectErrors
  simp only [List.mem_append]
  tauto

theorem isValid_false_of_mem {parseURL : String → Option URLObj}
    {now : CivilDate} {p : RawProject} {e : ValidationError}
    (h : e ∈ projectErrors parseURL now p) :
    (validateProject parseURL now p).isValid = false := by
  unfold validateProject
  cases hl : projectErrors parseURL now p with
  | nil => rw [hl] at h; exact absurd h (List.not_mem_nil e)
  | cons a as => rfl

theorem verifiedErrors_url_mem {now : CivilDate} {p : RawProject}
    (hv : p.verified = .boolv true) (h : jsTruthy p.url = false) :
    (⟨"url", "URL is required when verified is true", none⟩ :
      ValidationError) ∈ verifiedErrors now p := by
  unfold verifiedErrors
  rw [hv]
  simp [jsIsUndefined_boolv, h, List.mem_append]

theorem verifiedErrors_source_mem {now : CivilDate} {p : RawProject}
    (hv : p.verified = .boolv true)
    (h : (!jsTruthy p.source || !jsIsString p.source ||
      (jsTrim (jsStrVal p.source)).length == 0) = true) :
    (⟨"source", "Source is required when verified is true", some p.source⟩ :
      ValidationError) ∈ verifiedErrors now p := by
  unfold verifiedErrors
  rw [hv]
  simp [jsIsUndefined_boolv, h, List.mem_append]

theorem verifiedErrors_date_mem {now : CivilDate} {p : RawProject}
    (hv : p.verified = .boolv true)
    (h : (!jsTruthy p.dateVerified || !jsIsString p.dateVerified ||
      !validateISODate now (jsStrVal p.dateVerified)) = true) :
    (⟨"dateVerified",
      "Valid ISO date (YYYY-MM-DD) is required when verified is true",
      some p.dateVerified⟩ : ValidationError) ∈ verifiedErrors now p := by
  unfold verifiedErrors
  rw [hv]
  simp [jsIsUndefined_boolv, h, List.mem_append]

/-- Failure of the claim-side source condition implies the source check of
the code fires. -/
theorem stringCond_of_not {v : JsVal}
    (h : ¬ ∃ s, v = .strv s ∧ jsTrim s ≠ "") :
    (!jsTruthy v || !jsIsString v ||
      (jsTrim (jsStrVal v)).length == 0) = true := by
  cases v with
  | strv s =>
    have hts : jsTrim s = "" := by
      by_contra hc
      exact h ⟨s, rfl, hc⟩
    rw [jsTruthy_strv, jsIsString_strv, jsStrVal_strv, hts]
    simp
  | undefv => rfl
  | nullv => rfl
  | objv => rfl
  | arrv xs => rfl
  | boolv b =>
    rw [show jsIsString (.boolv b) = false from rfl]
    simp
  | numv n =>
    rw [show jsIsString (.numv n) = false from rfl]
    simp

/-- Failure of the claim-side date condition implies the date check of the
code fires. -/
theorem dateCond_of_not {now : CivilDate} {v : JsVal}
    (h : ¬ ∃ d, v = .strv d ∧ validateISODate now d = true) :
    (!jsTruthy v || !jsIsString v ||
      !validateISODate now (jsStrVal v)) = true := by
  cases v with
  | strv s =>
    have hval : validateISODate now s = false := by
      by_contra hc
      exact h ⟨s, rfl, by simpa using hc⟩
    rw [jsTruthy_strv, jsIsString_strv, jsStrVal_strv, hval]
    simp
  | undefv => rfl
  | nullv => rfl
  | objv => rfl
  | arrv xs => rfl
  | boolv b =>
    rw [show jsIsString (.boolv b) = false from rfl]
    simp
  | numv n =>
    rw [show jsIsString (.numv n) = false from rfl]
    simp

/-- C3: for any project whose `verified` field is the boolean `true`,
`validateProject` returns `isValid = false` unless the project has a
truthy `url`, a `source` that is a string with non-empty trimmed content,
and a `dateVerified` string accepted by `validateISODate`; when the url is
falsy the errors name the field `url`, when the source condition fails
they name `source`, and when the date condition fails they name
`dateVerified`. -/
theorem validateProject_verified_rule (parseURL : String → Option URLObj)
    (now : CivilDate) (p : RawProject) (hv : p.verified = .boolv true) :
    (¬ (jsTruthy p.url = true ∧
        (∃ s, p.source = .strv s ∧ jsTrim s ≠ "") ∧
        (∃ d, p.dateVerified = .strv d ∧ validateISODate now d = true)) →
      (validateProject parseURL now p).isValid = false) ∧
    (jsTruthy p.url = false →
      ∃ e ∈ (validateProject parseURL now p).errors, e.field = "url") ∧
    (¬ (∃ s, p.source = .strv s ∧ jsTrim s ≠ "") →
      ∃ e ∈ (validateProject parseURL now p).errors, e.field = "source") ∧
    (¬ (∃ d, p.dateVerified = .strv d ∧ validateISODate now d = true) →
      ∃ e ∈ (validateProject parseURL now p).errors, e.field = "dateVerified") := by
  have herrs : (validateProject parseURL now p).errors =
      projectErrors parseURL now p := rfl
  refine ⟨?_, ?_, ?_, ?_⟩
  · intro hnot
    by_cases hA : jsTruthy p.url = true
    · by_cases hB : ∃ s, p.source = .strv s ∧ jsTrim s ≠ ""
      · have hC : ¬ ∃ d, p.dateVerified = .strv d ∧
            validateISODate now d = true :=
          fun hc => hnot ⟨hA, hB, hc⟩
        exact isValid_false_of_mem (mem_projectErrors_of_mem_verified
          (verifiedErrors_date_mem hv (dateCond_of_not hC)))
      · exact isValid_false_of_mem (mem_projectErrors_of_mem_verified
          (verifiedErrors_source_mem hv (stringCond_of_not hB)))
    · have hA' : jsTruthy p.url = false := by simpa using hA
      exact isValid_false_of_mem (mem_projectErrors_of_mem_verified
        (verifiedErrors_url_mem hv hA'))
  · intro h
    refine ⟨⟨"url", "URL is required when verified is true", none⟩, ?_, rfl⟩
    rw [herrs]
    exact mem_projectErrors_of_mem_verified (verifiedErrors_url_mem hv h)
  · intro h
    refine ⟨⟨"source", "Source is required when verified is true",
      some p.source⟩, ?_, rfl⟩
    rw [herrs]
    exact mem_projectErrors_of_mem_verified
      (verifiedErrors_source_mem hv (stringCond_of_not h))
  · intro h
    refine ⟨⟨"dateVerified",
      "Valid ISO date (YYYY-MM-DD) is required when verified is true",
      some p.dateVerified⟩, ?_, rfl⟩
    rw [herrs]
    exact mem_projectErrors_of_mem_verified
      (verifiedErrors_date_mem hv (dateCond_of_not h))

/-- Witness project for C3: `verified: true` with url, source and
dateVerified all absent. -/
def verifiedStub : RawProject where
  id := .strv "p"
  title := .strv "t"
  description := .strv "d"
  impactCategory := .strv "conservation"
  region := .strv "north-america"
  coordinates := .arrv [.numv (.val ⟨0, 0⟩), .numv (.val ⟨0, 0⟩)]
  url := .undefv
  verified := .boolv true
  source := .undefv
  dateVerified := .undefv

/-- Witness for the C3 theorem, at the stub project, a rejecting parser
and the UTC day 2026-10-12. -/
theorem validateProject_verified_rule_witness :
    verifiedStub.verified = .boolv true ∧
    ((¬ (jsTruthy verifiedStub.url = true ∧
        (∃ s, verifiedStub.source = .strv s ∧ jsTrim s ≠ "") ∧
        (∃ d, verifiedStub.dateVerified = .strv d ∧
          validateISODate ⟨2026, 10, 12⟩ d = true)) →
      (validateProject (fun _ => none) ⟨2026, 10, 12⟩ verifiedStub).isValid =
        false) ∧
    (jsTruthy verifiedStub.url = false →
      ∃ e ∈ (validateProject (fun _ => none) ⟨2026, 10, 12⟩
        verifiedStub).errors, e.field = "url") ∧
    (¬ (∃ s, verifiedStub.source = .strv s ∧ jsTrim s ≠ "") →
      ∃ e ∈ (validateProject (fun _ => none) ⟨2026, 10, 12⟩
        verifiedStub).errors, e.field = "source") ∧
    (¬ (∃ d, verifiedStub.dateVerified = .strv d ∧
        validateISODate ⟨2026, 10, 12⟩ d = true) →
      ∃ e ∈ (validateProject (fun _ => none) ⟨2026, 10, 12⟩
        verifiedStub).errors, e.field = "dateVerified")) :=
  ⟨rfl, validateProject_verified_rule (fun _ => none) ⟨2026, 10, 12⟩
    verifiedStub rfl⟩

/-- C4: the dataset is a fixed array of exactly 6 records and, for any
current UTC day on or after 2025-08-13 and any host URL parser that parses
each record's URL as an `https:` URL, `validateProjects` returns
`isValid = true` with an empty errors array; in particular the 6 ids are
pairwise distinct and every record passes `validateProject`. -/
theorem dataset_valid (parseURL : String → Option URLObj) (now : CivilDate)
    (hnow : civilLe ⟨2025, 8, 13⟩ now = true)
    (hurl : ∀ p ∈ Data.projects,
      (parseURL (jsStrVal p.url)).map URLObj.protocol = some "https:") :
    Data.projects.length = 6 ∧
    (validateProjects parseURL now Data.projects).isValid = true ∧
    (validateProjects parseURL now Data.projects).errors = [] ∧
    (Data.projects.map (fun p => jsStrVal p.id)).Nodup ∧
    ∀ p ∈ Data.projects, (validateProject parseURL now p).isValid = true := by
  have hall := validateProjects_dataset parseURL now hnow hurl
  refine ⟨rfl, by rw [hall], by rw [hall], by decide, ?_⟩
  intro p hp
  have hp' : p = Data.twoBillionTrees ∨ p = Data.traversSolar ∨
      p = Data.torontoUrbanAgriculture ∨ p = Data.vancouverZeroWaste ∨
      p = Data.everwindGreenHydrogen ∨
      p = Data.ducksUnlimitedPrairieWetlands := by
    simpa [Data.projects] using hp
  rcases hp' with h | h | h | h | h | h <;> subst h
  · rw [validateProject_twoBillionTrees parseURL now hnow
      (hurl Data.twoBillionTrees (by simp [Data.projects]))]
  · rw [validateProject_traversSolar parseURL now hnow
      (hurl Data.traversSolar (by simp [Data.projects]))]
  · rw [validateProject_torontoUrbanAgriculture parseURL now hnow
      (hurl Data.torontoUrbanAgriculture (by simp [Data.projects]))]
  · rw [validateProject_vancouverZeroWaste parseURL now hnow
      (hurl Data.vancouverZeroWaste (by simp [Data.projects]))]
  · rw [validateProject_everwindGreenHydrogen parseURL now hnow
      (hurl Data.everwindGreenHydrogen (by simp [Data.projects]))]
  · rw [validateProject_ducksUnlimited parseURL now hnow
      (hurl Data.ducksUnlimitedPrairieWetlands (by simp [Data.projects]))]

/-- Sample host URL parser for the C4 witness: accepts strings beginning
with the scheme `https:`. -/
def httpsPrefixParse : String → Option URLObj := fun s =>
  match s.data with
  | 'h' :: 't' :: 't' :: 'p' :: 's' :: ':' :: _ => some ⟨"https:"⟩
  | _ => none

/-- Witness for the C4 theorem, at the UTC day 2026-10-12 and the sample
parser. -/
theorem dataset_valid_witness :
    civilLe ⟨2025, 8, 13⟩ ⟨2026, 10, 12⟩ = true ∧
    (∀ p ∈ Data.projects,
      (httpsPrefixParse (jsStrVal p.url)).map URLObj.protocol =
        some "https:") ∧
    (Data.projects.length = 6 ∧
      (validateProjects httpsPrefixParse ⟨2026, 10, 12⟩
        Data.projects).isValid = true ∧
      (validateProjects httpsPrefixParse ⟨2026, 10, 12⟩
        Data.projects).errors = [] ∧
      (Data.projects.map (fun p => jsStrVal p.id)).Nodup ∧
      ∀ p ∈ Data.projects,
        (validateProject httpsPrefixParse ⟨2026, 10, 12⟩ p).isValid = true) :=
  ⟨by decide, by decide,
    dataset_valid httpsPrefixParse ⟨2026, 10, 12⟩ (by decide) (by decide)⟩

/-! ### Lemmas for `uniqueBy` -/

theorem uniqueByAux_eq_firstOccurrences {α κ : Type} [DecidableEq κ]
    (keyFn : α → κ) :
    ∀ (xs : List α) (seen : List κ),
      uniqueByAux keyFn seen xs =
        firstOccurrences keyFn
          (xs.filter fun y => !seen.contains (keyFn y)) := by
  intro xs
  induction xs with
  | nil => intro seen; simp [uniqueByAux, firstOccurrences]
  | cons x xs ih =>
    intro seen
    show (if seen.contains (keyFn x) then uniqueByAux keyFn seen xs
      else x :: uniqueByAux keyFn (keyFn x :: seen) xs) = _
    rw [List.filter_cons]
    by_cases h : seen.contains (keyFn x) = true
    · rw [if_pos h, ih seen, h]
      simp
    · have h' : seen.contains (keyFn x) = false := by
        cases hc : seen.contains (keyFn x) with
        | false => rfl
        | true => exact absurd hc h
      rw [if_neg h, h']
      simp only [Bool.not_false, if_true]
      rw [ih (keyFn x :: seen)]
      simp only [firstOccurrences]
      refine congrArg (x :: ·) (congrArg (firstOccurrences keyFn) ?_)
      rw [List.filter_filter]
      apply List.filter_congr
      intro a _
      rw [List.contains_cons, Bool.not_or]
      rfl

theorem firstOccurrences_sublist_aux {α κ : Type} [DecidableEq κ]
    (keyFn : α → κ) :
    ∀ (n : Nat) (l : List α), l.length ≤ n →
      List.Sublist (firstOccurrences keyFn l) l := by
  intro n
  induction n with
  | zero =>
    intro l hl
    have hn : l = [] := List.length_eq_zero.mp (Nat.le_zero.mp hl)
    subst hn
    simp [firstOccurrences]
  | succ n ih =>
    intro l hl
    cases l with
    | nil => simp [firstOccurrences]
    | cons x xs =>
      simp only [firstOccurrences]
      refine List.Sublist.cons₂ x ?_
      have hlen : (xs.filter fun y => keyFn y != keyFn x).length ≤ n := by
        have h1 := List.length_filter_le (fun y => keyFn y != keyFn x) xs
        simp only [List.length_cons] at hl
        omega
      exact (ih _ hlen).trans (List.filter_sublist xs)

theorem firstOccurrences_sublist {α κ : Type} [DecidableEq κ]
    (keyFn : α → κ) (l : List α) : List.Sublist (firstOccurrences keyFn l) l :=
  firstOccurrences_sublist_aux keyFn l.length l (le_refl _)

theorem firstOccurrences_keys_nodup_aux {α κ : Type} [DecidableEq κ]
    (keyFn : α → κ) :
    ∀ (n : Nat) (l : List α), l.length ≤ n →
      ((firstOccurrences keyFn l).map keyFn).Nodup := by
  intro n
  induction n with
  | zero =>
    intro l hl
    have hn : l = [] := List.length_eq_zero.mp (Nat.le_zero.mp hl)
    subst hn
    simp [firstOccurrences]
  | succ n ih =>
    intro l hl
    cases l with
    | nil => simp [firstOccurrences]
    | cons x xs =>
      simp only [firstOccurrences, List.map_cons, List.nodup_cons]
      constructor
      · intro hmem
        rw [List.mem_map] at hmem
        obtain ⟨y, hy, hkey⟩ := hmem
        have hy2 : y ∈ xs.filter fun y => keyFn y != keyFn x :=
          (firstOccurrences_sublist keyFn _).subset hy
        have hne := List.of_mem_filter hy2
        simp only [bne_iff_ne, ne_eq] at hne
        exact hne hkey
      · refine ih _ ?_
        have h1 := List.length_filter_le (fun y => keyFn y != keyFn x) xs
        simp only [List.length_cons] at hl
        omega

theorem firstOccurrences_keys_nodup {α κ : Type} [DecidableEq κ]
    (keyFn : α → κ) (l : List α) :
    ((firstOccurrences keyFn l).map keyFn).Nodup :=
  firstOccurrences_keys_nodup_aux keyFn l.length l (le_refl _)

theorem firstOccurrences_eq_self_aux {α κ : Type} [DecidableEq κ]
    (keyFn : α → κ) :
    ∀ (n : Nat) (l : List α), l.length ≤ n → (l.map keyFn).Nodup →
      firstOccurrences keyFn l = l := by
  intro n
  induction n with
  | zero =>
    intro l hl _
    have hn : l = [] := List.length_eq_zero.mp (Nat.le_zero.mp hl)
    subst hn
    simp [firstOccurrences]
  | succ n ih =>
    intro l hl hnd
    cases l with
    | nil => simp [firstOccurrences]
    | cons x xs =>
      simp only [List.map_cons, List.nodup_cons] at hnd
      obtain ⟨hx, hnd'⟩ := hnd
      have hfe : (xs.filter fun y => keyFn y != keyFn x) = xs := by
        apply List.filter_eq_self.mpr
        intro a ha
        simp only [bne_iff_ne, ne_eq]
        intro he
        exact hx (he ▸ List.mem_map_of_mem keyFn ha)
      simp only [firstOccurrences, hfe]
      rw [ih xs (by simp only [List.length_cons] at hl; omega) hnd']

theorem firstOccurrences_eq_self {α κ : Type} [DecidableEq κ]
    (keyFn : α → κ) (l : List α) (h : (l.map keyFn).Nodup) :
    firstOccurrences keyFn l = l :=
  firstOccurrences_eq_self_aux keyFn l.length l (le_refl _) h

theorem uniqueBy_eq_firstOccurrences {α κ : Type} [DecidableEq κ]
    (array : List α) (keyFn : α → κ) :
    uniqueBy array keyFn = firstOccurrences keyFn array := by
  unfold uniqueBy
  rw [uniqueByAux_eq_firstOccurrences]
  congr 1
  apply List.filter_eq_self.mpr
  intro a _
  rfl

/-- C8: `uniqueBy` returns the subsequence of the array keeping exactly
the first occurrence of each key value, so its keys are pairwise distinct
and it is idempotent. -/
theorem uniqueBy_spec {α κ : Type} [DecidableEq κ] (array : List α)
    (keyFn : α → κ) :
    uniqueBy array keyFn = firstOccurrences keyFn array ∧
    List.Sublist (uniqueBy array keyFn) array ∧
    ((uniqueBy array keyFn).map keyFn).Nodup ∧
    uniqueBy (uniqueBy array keyFn) keyFn = uniqueBy array keyFn := by
  have h1 := uniqueBy_eq_firstOccurrences array keyFn
  refine ⟨h1, ?_, ?_, ?_⟩
  · rw [h1]
    exact firstOccurrences_sublist keyFn array
  · rw [h1]
    exact firstOccurrences_keys_nodup keyFn array
  · rw [h1, uniqueBy_eq_firstOccurrences]
    exact firstOccurrences_eq_self keyFn _ (firstOccurrences_keys_nodup keyFn array)

/-! ### Lemmas for marker reconciliation -/

theorem markerGet_cons {M : Type} (e : String × M) (rest : MarkerMap M)
    (x : String) :
    markerGet (e :: rest) x =
      if e.1 == x then some e.2 else markerGet rest x := by
  cases h : (e.1 == x) with
  | true =>
    unfold markerGet
    simp [List.find?, h]
  | false =>
    unfold markerGet
    simp [List.find?, h]

theorem markerGet_eq_none_iff {M : Type} (m : MarkerMap M) (k : String) :
    markerGet m k = none ↔ k ∉ markerKeys m := by
  unfold markerGet markerKeys
  rw [Option.map_eq_none', List.find?_eq_none]
  constructor
  · intro h hk
    rw [List.mem_map] at hk
    obtain ⟨e, he, hek⟩ := hk
    exact (h e he) (beq_iff_eq.mpr hek)
  · intro h e he hbeq
    exact h (List.mem_map.mpr ⟨e, he, beq_iff_eq.mp hbeq⟩)

theorem markerGet_set {M : Type} (m : MarkerMap M) (k : String) (v : M)
    (x : String) :
    markerGet (markerSet m k v) x =
      if x = k then some v else markerGet m x := by
  induction m with
  | nil =>
    show markerGet [(k, v)] x = _
    rw [markerGet_cons]
    by_cases h : x = k
    · subst h
      simp
    · have hb : (k == x) = false := beq_eq_false_iff_ne.mpr fun hc => h hc.symm
      rw [hb, if_neg h]
      simp [markerGet]
  | cons e rest ih =>
    show markerGet (if e.1 == k then (k, v) :: rest
      else e :: markerSet rest k v) x = _
    by_cases he : (e.1 == k) = true
    · rw [if_pos he, markerGet_cons, markerGet_cons]
      have hek : e.1 = k := beq_iff_eq.mp he
      by_cases hx : x = k
      · subst hx
        simp
      · have h1 : (k == x) = false :=
          beq_eq_false_iff_ne.mpr fun hc => hx hc.symm
        have h2 : (e.1 == x) = false := by rw [hek]; exact h1
        simp only [Prod.fst, h1, h2, if_neg hx, Bool.false_eq_true, if_false]
    · rw [if_neg he, markerGet_cons, ih, markerGet_cons]
      by_cases hex : (e.1 == x) = true
      · have hxk : ¬ x = k := by
          intro hc
          exact he (beq_iff_eq.mpr (by rw [beq_iff_eq.mp hex, hc]))
        simp [hex, hxk]
      · have hex' : (e.1 == x) = false := by
          cases hc : (e.1 == x) with
          | false => rfl
          | true => exact absurd hc hex
        rw [hex']
        simp only [Bool.false_eq_true, if_false]

theorem mem_markerKeys_set {M : Type} (m : MarkerMap M) (k : String) (v : M)
    (x : String) :
    x ∈ markerKeys (markerSet m k v) ↔ x = k ∨ x ∈ markerKeys m := by
  induction m with
  | nil => simp [markerSet, markerKeys]
  | cons e rest ih =>
    show x ∈ markerKeys (if e.1 == k then (k, v) :: rest
      else e :: markerSet rest k v) ↔ _
    by_cases he : (e.1 == k) = true
    · rw [if_pos he]
      have hek : e.1 = k := beq_iff_eq.mp he
      show x ∈ k :: markerKeys rest ↔ x = k ∨ x ∈ e.1 :: markerKeys rest
      rw [hek]
      simp only [List.mem_cons]
      tauto
    · rw [if_neg he]
      show x ∈ e.1 :: markerKeys (markerSet rest k v) ↔
        x = k ∨ x ∈ e.1 :: markerKeys rest
      simp only [List.mem_cons, ih]
      tauto

theorem mem_markerKeys_filter {M : Type} (m : MarkerMap M)
    (ids : List String) (k : String) :
    k ∈ markerKeys (m.filter fun e => ids.contains e.1) ↔
      k ∈ markerKeys m ∧ k ∈ ids := by
  unfold markerKeys
  constructor
  · intro h
    rw [List.mem_map] at h
    obtain ⟨e, he, hek⟩ := h
    rw [List.mem_filter] at he
    obtain ⟨hm, hc⟩ := he
    subst hek
    exact ⟨List.mem_map_of_mem _ hm, by simpa using hc⟩
  · rintro ⟨hm, hi⟩
    rw [List.mem_map] at hm
    obtain ⟨e, he, hek⟩ := hm
    rw [List.mem_map]
    refine ⟨e, List.mem_filter.mpr ⟨he, ?_⟩, hek⟩
    subst hek
    simpa using hi

theorem markerGet_filter {M : Type} (m : MarkerMap M) (ids : List String)
    (k : String) (hnd : (markerKeys m).Nodup) :
    markerGet (m.filter fun e => ids.contains e.1) k =
      if ids.contains k then markerGet m k else none := by
  induction m with
  | nil =>
    show markerGet [] k = if ids.contains k then markerGet [] k else none
    by_cases h : (ids.contains k) = true <;> simp [h, markerGet]
  | cons e rest ih =>
    have hnd2 : (markerKeys rest).Nodup ∧ e.1 ∉ markerKeys rest := by
      have : markerKeys (e :: rest) = e.1 :: markerKeys rest := rfl
      rw [this, List.nodup_cons] at hnd
      exact ⟨hnd.2, hnd.1⟩
    rw [List.filter_cons]
    by_cases hc : (ids.contains e.1) = true
    · rw [if_pos hc, markerGet_cons, markerGet_cons]
      by_cases hek : (e.1 == k) = true
      · have hek' : e.1 = k := beq_iff_eq.mp hek
        rw [if_pos hek, if_pos hek, if_pos (by rw [← hek']; exact hc)]
      · rw [if_neg hek, if_neg hek, ih hnd2.1]
    · rw [if_neg hc, ih hnd2.1, markerGet_cons]
      by_cases hek : (e.1 == k) = true
      · have hek' : e.1 = k := beq_iff_eq.mp hek
        have hkids : (ids.contains k) = false := by
          rw [← hek']
          cases hc2 : ids.contains e.1 with
          | false => rfl
          | true => exact absurd hc2 hc
        rw [hkids]
        simp
      · rw [if_neg hek]

theorem contains_eq_true_of_mem {a : String} {l : List String} (h : a ∈ l) :
    l.contains a = true :=
  List.elem_eq_true_of_mem h

theorem mem_of_contains_eq_true {a : String} {l : List String}
    (h : l.contains a = true) : a ∈ l :=
  List.mem_of_elem_eq_true h

theorem addMarkerStep_skip_ex {M : Type} {create : Project → M}
    {exIds : List String} {acc : MarkerMap M} {p : Project}
    (hex : exIds.contains p.id = true) :
    addMarkerStep create exIds acc p = acc := by
  unfold addMarkerStep
  rw [if_pos hex]

theorem addMarkerStep_write {M : Type} {create : Project → M}
    {exIds : List String} {acc : MarkerMap M} {p : Project}
    (hex : exIds.contains p.id = false)
    (hval : validCoordinates p.coordinates = true) :
    addMarkerStep create exIds acc p = markerSet acc p.id (create p) := by
  unfold addMarkerStep
  rw [if_neg (by rw [hex]; exact Bool.false_ne_true), if_pos hval]

/-- Preservation: the creation fold never touches a key that already had a
marker before the update (such keys are in `exIds` and every write targets
an id outside `exIds`). -/
theorem foldl_addMarker_get_ex {M : Type} (create : Project → M)
    (exIds : List String) :
    ∀ (ps : List Project) (acc : MarkerMap M) (k : String), k ∈ exIds →
      markerGet (ps.foldl (addMarkerStep create exIds) acc) k =
        markerGet acc k := by
  intro ps
  induction ps with
  | nil => intro acc k _; rfl
  | cons p ps ih =>
    intro acc k hk
    show markerGet (ps.foldl (addMarkerStep create exIds)
      (addMarkerStep create exIds acc p)) k = _
    cases hex : exIds.contains p.id with
    | true => rw [addMarkerStep_skip_ex hex, ih acc k hk]
    | false =>
      cases hval : validCoordinates p.coordinates with
      | true =>
        rw [addMarkerStep_write hex hval, ih _ k hk, markerGet_set]
        have hne : ¬ k = p.id := by
          intro hc
          subst hc
          rw [contains_eq_true_of_mem hk] at hex
          exact Bool.noConfusion hex
        rw [if_neg hne]
      | false =>
        have hstep : addMarkerStep create exIds acc p = acc := by
          unfold addMarkerStep
          rw [if_neg (by rw [hex]; exact Bool.false_ne_true),
            if_neg (by rw [hval]; exact Bool.false_ne_true)]
        rw [hstep, ih acc k hk]

/-- Key set of the creation fold: the accumulator keys plus the ids of
coordinate-valid projects that had no marker. -/
theorem foldl_addMarker_keys {M : Type} (create : Project → M)
    (exIds : List String) :
    ∀ (ps : List Project) (acc : MarkerMap M) (k : String),
      (∀ p ∈ ps, validCoordinates p.coordinates = true) →
      (k ∈ markerKeys (ps.foldl (addMarkerStep create exIds) acc) ↔
        k ∈ markerKeys acc ∨ (k ∈ ps.map Project.id ∧ k ∉ exIds)) := by
  intro ps
  induction ps with
  | nil =>
    intro acc k _
    simp
  | cons p ps ih =>
    intro acc k hcoords
    have hval : validCoordinates p.coordinates = true :=
      hcoords p (List.mem_cons_self p ps)
    have hcoords2 : ∀ q ∈ ps, validCoordinates q.coordinates = true :=
      fun q hq => hcoords q (List.mem_cons_of_mem p hq)
    show k ∈ markerKeys (ps.foldl (addMarkerStep create exIds)
      (addMarkerStep create exIds acc p)) ↔ _
    simp only [List.map_cons, List.mem_cons]
    cases hex : exIds.contains p.id with
    | true =>
      rw [addMarkerStep_skip_ex hex, ih acc k hcoords2]
      have hpid : k = p.id → k ∈ exIds := by
        intro hc
        subst hc
        exact mem_of_contains_eq_true hex
      constructor
      · rintro (h | ⟨h1, h2⟩)
        · exact Or.inl h
        · exact Or.inr ⟨Or.inr h1, h2⟩
      · rintro (h | ⟨h1 | h1, h2⟩)
        · exact Or.inl h
        · exact absurd (hpid h1) h2
        · exact Or.inr ⟨h1, h2⟩
    | false =>
      have hpex : p.id ∉ exIds := by
        intro hc
        rw [contains_eq_true_of_mem hc] at hex
        exact Bool.noConfusion hex
      rw [addMarkerStep_write hex hval, ih _ k hcoords2,
        mem_markerKeys_set]
      constructor
      · rintro ((h | h) | ⟨h1, h2⟩)
        · exact Or.inr ⟨Or.inl h, h ▸ hpex⟩
        · exact Or.inl h
        · exact Or.inr ⟨Or.inr h1, h2⟩
      · rintro (h | ⟨h1 | h1, h2⟩)
        · exact Or.inl (Or.inr h)
        · exact Or.inl (Or.inl h1)
        · exact Or.inr ⟨h1, h2⟩

/-- Lookup after the creation fold: either the key was untouched, or some
listed project with that id (and no pre-existing marker) wrote a freshly
created marker. -/
theorem foldl_addMarker_get_or {M : Type} (create : Project → M)
    (exIds : List String) :
    ∀ (ps : List Project) (acc : MarkerMap M) (k : String),
      markerGet (ps.foldl (addMarkerStep create exIds) acc) k =
        markerGet acc k ∨
      ∃ q ∈ ps, q.id = k ∧ k ∉ exIds ∧
        markerGet (ps.foldl (addMarkerStep create exIds) acc) k =
          some (create q) := by
  intro ps
  induction ps with
  | nil =>
    intro acc k
    exact Or.inl rfl
  | cons p ps ih =>
    intro acc k
    show markerGet (ps.foldl (addMarkerStep create exIds)
      (addMarkerStep create exIds acc p)) k = markerGet acc k ∨
      ∃ q ∈ p :: ps, q.id = k ∧ k ∉ exIds ∧
        markerGet (ps.foldl (addMarkerStep create exIds)
          (addMarkerStep create exIds acc p)) k = some (create q)
    cases hex : exIds.contains p.id with
    | true =>
      rw [addMarkerStep_skip_ex hex]
      rcases ih acc k with h | ⟨q, hq, hqk, hkex, hv⟩
      · exact Or.inl h
      · exact Or.inr ⟨q, List.mem_cons_of_mem p hq, hqk, hkex, hv⟩
    | false =>
      have hpex : p.id ∉ exIds := by
        intro hc
        rw [contains_eq_true_of_mem hc] at hex
        exact Bool.noConfusion hex
      cases hval : validCoordinates p.coordinates with
      | true =>
        rw [addMarkerStep_write hex hval]
        rcases ih (markerSet acc p.id (create p)) k with h | ⟨q, hq, hqk, hkex, hv⟩
        · rw [h, markerGet_set]
          by_cases hk : k = p.id
          · subst hk
            refine Or.inr ⟨p, List.mem_cons_self p ps, rfl, hpex, ?_⟩
            rw [if_pos rfl]
          · rw [if_neg hk]
            exact Or.inl rfl
        · exact Or.inr ⟨q, List.mem_cons_of_mem p hq, hqk, hkex, hv⟩
      | false =>
        have hstep : addMarkerStep create exIds acc p = acc := by
          unfold addMarkerStep
          rw [if_neg (by rw [hex]; exact Bool.false_ne_true),
            if_neg (by rw [hval]; exact Bool.false_ne_true)]
        rw [hstep]
        rcases ih acc k with h | ⟨q, hq, hqk, hkex, hv⟩
        · exact Or.inl h
        · exact Or.inr ⟨q, List.mem_cons_of_mem p hq, hqk, hkex, hv⟩

/-- C2: on a present map instance, for every marker map (distinct keys, as
in a JS `Map`) and every filtered-project list whose members all carry a
valid coordinates array (exactly two non-`NaN` numbers), `updateMarkers`
leaves the marker keys equal to the ids of the filtered projects: a marker
is removed exactly when its id left the filtered list, a marker is created
exactly for filtered ids that had none, and markers present before and
after keep their exact marker object. -/
theorem updateMarkers_spec {M : Type} (create : Project → M)
    (markers : MarkerMap M) (projects : List Project) (mi : Option Unit)
    (hmap : mi.isSome = true)
    (hkeys : (markerKeys markers).Nodup)
    (hcoords : ∀ p ∈ projects, validCoordinates p.coordinates = true) :
    (∀ k, k ∈ markerKeys (updateMarkers mi create markers projects) ↔
      k ∈ projects.map Project.id) ∧
    (∀ k, k ∈ markerKeys markers → k ∈ projects.map Project.id →
      markerGet (updateMarkers mi create markers projects) k =
        markerGet markers k) ∧
    (∀ k, k ∈ markerKeys markers → k ∉ projects.map Project.id →
      markerGet (updateMarkers mi create markers projects) k = none) ∧
    (∀ p ∈ projects, p.id ∉ markerKeys markers →
      ∃ q ∈ projects, q.id = p.id ∧
        markerGet (updateMarkers mi create markers projects) p.id =
          some (create q)) := by
  cases mi with
  | none => exact absurd hmap (by simp)
  | some u =>
    cases u
    have hupd : updateMarkers (some ()) create markers projects =
        projects.foldl (addMarkerStep create (markerKeys markers))
          (markers.filter fun e =>
            (projects.map Project.id).contains e.1) := rfl
    rw [hupd]
    refine ⟨?_, ?_, ?_, ?_⟩
    · intro k
      rw [foldl_addMarker_keys create (markerKeys markers) projects _ k hcoords]
      rw [mem_markerKeys_filter]
      by_cases hk : k ∈ markerKeys markers <;> tauto
    · intro k hkm hki
      rw [foldl_addMarker_get_ex create (markerKeys markers) projects _ k hkm]
      rw [markerGet_filter markers _ k hkeys]
      rw [if_pos (contains_eq_true_of_mem hki)]
    · intro k hkm hki
      rw [foldl_addMarker_get_ex create (markerKeys markers) projects _ k hkm]
      rw [markerGet_filter markers _ k hkeys]
      rw [if_neg (fun hc => hki (mem_of_contains_eq_true hc))]
    · intro p hp hpm
      rcases foldl_addMarker_get_or create (markerKeys markers) projects
        (markers.filter fun e => (projects.map Project.id).contains e.1)
        p.id with h | ⟨q, hq, hqk, hkex, hv⟩
      · exfalso
        have h1 : p.id ∈ markerKeys (projects.foldl
            (addMarkerStep create (markerKeys markers))
            (markers.filter fun e =>
              (projects.map Project.id).contains e.1)) :=
          (foldl_addMarker_keys create (markerKeys markers) projects _
            p.id hcoords).mpr
            (Or.inr ⟨List.mem_map_of_mem Project.id hp, hpm⟩)
        have h2 : markerGet (markers.filter fun e =>
            (projects.map Project.id).contains e.1) p.id = none := by
          rw [markerGet_filter markers _ p.id hkeys]
          by_cases hc : ((projects.map Project.id).contains p.id) = true
          · rw [if_pos hc]
            exact (markerGet_eq_none_iff markers p.id).mpr hpm
          · rw [if_neg hc]
        rw [h2] at h
        exact (markerGet_eq_none_iff _ _).mp h h1
      · exact ⟨q, hq, hqk, hv⟩

/-- Witness project for C2 whose marker survives the update. -/
def markerStubA : Project where
  id := "keep"
  title := "a"
  description := "a"
  impactCategory := "conservation"
  region := "north-america"
  coordinates := .arrv [.numv (.val ⟨0, 0⟩), .numv (.val ⟨0, 0⟩)]

/-- Witness project for C2 that gets a fresh marker. -/
def markerStubB : Project where
  id := "new"
  title := "b"
  description := "b"
  impactCategory := "conservation"
  region := "north-america"
  coordinates := .arrv [.numv (.val ⟨1, 0⟩), .numv (.val ⟨2, 0⟩)]

/-- Witness marker map for C2: one stale marker and one that survives. -/
def markerStubMap : MarkerMap Nat := [("old", 1), ("keep", 2)]

/-- Witness for the C2 theorem at a two-project list against a two-marker
map on a present map instance. -/
theorem updateMarkers_spec_witness :
    (some ()).isSome = true ∧
    (markerKeys markerStubMap).Nodup ∧
    (∀ p ∈ [markerStubA, markerStubB],
      validCoordinates p.coordinates = true) ∧
    ((∀ k, k ∈ markerKeys (updateMarkers (some ()) (fun _ => 7) markerStubMap
        [markerStubA, markerStubB]) ↔
      k ∈ [markerStubA, markerStubB].map Project.id) ∧
    (∀ k, k ∈ markerKeys markerStubMap →
      k ∈ [markerStubA, markerStubB].map Project.id →
      markerGet (updateMarkers (some ()) (fun _ => 7) markerStubMap
        [markerStubA, markerStubB]) k = markerGet markerStubMap k) ∧
    (∀ k, k ∈ markerKeys markerStubMap →
      k ∉ [markerStubA, markerStubB].map Project.id →
      markerGet (updateMarkers (some ()) (fun _ => 7) markerStubMap
        [markerStubA, markerStubB]) k = none) ∧
    (∀ p ∈ [markerStubA, markerStubB], p.id ∉ markerKeys markerStubMap →
      ∃ q ∈ [markerStubA, markerStubB], q.id = p.id ∧
        markerGet (updateMarkers (some ()) (fun _ => 7) markerStubMap
          [markerStubA, markerStubB]) p.id = some 7)) :=
  ⟨rfl, by decide, by decide,
    updateMarkers_spec (fun _ => 7) markerStubMap [markerStubA, markerStubB]
      (some ()) rfl (by decide) (by decide)⟩

/-- Witness project for the C2 counterexample: coordinates are an array of
exactly two values of JS type number, the first being `NaN`. -/
def markerStubNaN : Project where
  id := "nan-proj"
  title := "n"
  description := "n"
  impactCategory := "conservation"
  region := "north-america"
  coordinates := .arrv [.numv .nan, .numv (.val ⟨0, 0⟩)]

/-- C2 counterexample: `NaN` is a JS number (`typeof NaN === 'number'`),
so this project's coordinates are an array of exactly two numbers, yet on
a present map instance `updateMarkers` leaves the marker map empty — the
creation loop skips `NaN` coordinates — so the resulting key set differs
from the filtered project ids. -/
theorem updateMarkers_counterexample :
    markerStubNaN.coordinates =
      .arrv [.numv .nan, .numv (.val ⟨0, 0⟩)] ∧
    jsIsNumber (.numv .nan) = true ∧
    jsIsNumber (.numv (.val ⟨0, 0⟩)) = true ∧
    markerKeys (updateMarkers (some ()) (fun _ => (7 : Nat)) []
      [markerStubNaN]) = [] ∧
    [markerStubNaN].map Project.id = ["nan-proj"] :=
  ⟨rfl, rfl, rfl, rfl, rfl⟩

end XGE
